import Mathlib

/-!
Verification development for the `journaldb` repository.

The core logic lives in `journaldb/models.py` (entry synchronizer over a
record store and a search index), `journaldb/pageio.py` (plaintext codec)
and `journaldb/core.py` (schema / wiring).  The record store (`dbbase`),
the inverted index (`whoosh`) and the YAML header codec are external
collaborators; they are modelled from the design document's description of
their interfaces (sections 4.2, 4.3 and 1 of the spec), as noted on each
definition.  All `journaldb` functions are translated directly from the
source.
-/

/-- Calendar date.  `journaldb` stores dates as `datetime` values, but the
design document gives dates calendar-day semantics only ("no time-of-day
semantics required", spec section 3), and the fixed interchange format is
`YYYY-MM-DD` (spec section 6). -/
structure Date where
  year : Nat
  month : Nat
  day : Nat
deriving DecidableEq, Repr

/-- Gregorian leap-year rule, as used by Python's `datetime` validation. -/
def isLeapYear (y : Nat) : Bool :=
  y % 4 == 0 && (y % 100 != 0 || y % 400 == 0)

/-- Number of days in a month, as validated by Python's `datetime`. -/
def daysInMonth (y m : Nat) : Nat :=
  if m = 2 then (if isLeapYear y then 29 else 28)
  else if m = 4 ∨ m = 6 ∨ m = 9 ∨ m = 11 then 30
  else 31

/-- A date expressible in the fixed `YYYY-MM-DD` interchange format of spec
section 6 (four-digit year) and accepted by Python's `datetime`. -/
def Date.valid (d : Date) : Bool :=
  1000 ≤ d.year && d.year ≤ 9999 && 1 ≤ d.month && d.month ≤ 12 &&
    1 ≤ d.day && d.day ≤ daysInMonth d.year d.month

/-- A persisted journal entry: the row shape of the `journal_entries` table
declared by `JournalEntry` in `journaldb/core.py` (integer primary key,
title, content, date, tags). -/
structure Entry where
  id : Nat
  title : String
  content : String
  date : Date
  tags : String
deriving DecidableEq, Repr

/-- A document of the whoosh index, per the schema in
`create_whoosh_schema` (`journaldb/core.py`): stored fields `id`, `title`,
`content`, `date`, `tags`.  The source stores `str(entry_id)` in the `id`
field; since `Nat.repr` is injective we keep the numeric id. -/
structure IndexDoc where
  id : Nat
  title : String
  content : String
  date : Date
  tags : String
deriving DecidableEq, Repr

/-- The index document carrying exactly the field values of a store row. -/
def docOf (e : Entry) : IndexDoc :=
  { id := e.id, title := e.title, content := e.content, date := e.date, tags := e.tags }

/-- Modelled from the spec: the record store (`dbbase`, an external
collaborator, spec section 4.2).  Rows in insertion order plus the next
id the store will assign ("assigned by the record store on first
creation", spec section 3). -/
structure DB where
  rows : List Entry
  nextId : Nat
deriving DecidableEq, Repr

/-- Modelled from the spec: `create(fields) -> id` of the record store
adapter (spec section 4.2); the store assigns the fresh integer id. -/
def DB.create (db : DB) (title content : String) (date : Date) (tags : String) : DB :=
  { rows := db.rows ++ [{ id := db.nextId, title := title, content := content,
                          date := date, tags := tags }],
    nextId := db.nextId + 1 }

/-- Modelled from the spec: `getById(id) -> Entry|absent` (spec section
4.2), used by `JournalEntry.get(db, id=...)` in `journaldb/models.py`. -/
def DB.getById (db : DB) (i : Nat) : Option Entry :=
  db.rows.find? (fun e => e.id == i)

/-- Modelled from the spec: `getByExact(title, date) -> Entry|absent`
(spec section 4.2), used by `JournalEntry.get(db, title=..., date=...)`.
On several matching rows the spec leaves the result unspecified; we model
the first row in insertion order (SQLite's default row order for an
unordered single-row fetch). -/
def DB.getByTitleDate (db : DB) (t : String) (d : Date) : Option Entry :=
  db.rows.find? (fun e => e.title == t && e.date == d)

/-- The field diff built by `update_entry` (`journaldb/models.py` lines
90-98): for each field, either a new value or "leave untouched". -/
structure Updates where
  title : Option String
  content : Option String
  date : Option Date
  tags : Option String
deriving DecidableEq, Repr

/-- Apply a field diff to a row; the id is never part of the diff. -/
def applyUpdates (e : Entry) (u : Updates) : Entry :=
  { id := e.id, title := u.title.getD e.title, content := u.content.getD e.content,
    date := u.date.getD e.date, tags := u.tags.getD e.tags }

/-- Modelled from the spec: `update(id, fields) -> void` of the record
store adapter (spec section 4.2), used as
`JournalEntry.update(db, where={id}, updates=...)`. -/
def DB.update (db : DB) (i : Nat) (u : Updates) : DB :=
  { rows := db.rows.map (fun e => if e.id == i then applyUpdates e u else e),
    nextId := db.nextId }

/-- Modelled from the spec: `delete(id) -> void` of the record store
adapter (spec section 4.2), used as `JournalEntry.delete(db, id=...)`. -/
def DB.deleteById (db : DB) (i : Nat) : DB :=
  { rows := db.rows.filter (fun e => e.id != i), nextId := db.nextId }

/-- Modelled from the spec: whoosh `writer.add_document` — the plain
"add-document" operation of the index engine (spec section 2 lists
"add-document" and "update-document (upsert by id)" as distinct
operations): it appends a document and does not replace an existing
document with the same id. -/
def ixAddDocument (ix : List IndexDoc) (d : IndexDoc) : List IndexDoc :=
  ix ++ [d]

/-- Modelled from the spec: whoosh `writer.update_document` — the
"upsert by id" operation (spec section 4.3): any existing documents whose
unique `id` field matches are deleted, then the new document is added. -/
def ixUpdateDocument (ix : List IndexDoc) (d : IndexDoc) : List IndexDoc :=
  ix.filter (fun x => x.id != d.id) ++ [d]

/-- Modelled from the spec: whoosh `writer.delete_by_term('id', ...)` —
"delete-by-id, no-op if absent" (spec section 4.3). -/
def ixDeleteByTerm (ix : List IndexDoc) (i : Nat) : List IndexDoc :=
  ix.filter (fun x => x.id != i)

/-- Python exceptions that the translated code can raise.  `ValueError`
carries its message (the spec's `FormatError` taxonomy maps onto
`ValueError`, spec section 7); `TypeError` stands for subscripting a
`None` result; `NameError` for resolving an undefined name. -/
inductive PyErr where
  | valueError (msg : String)
  | typeError
  | nameError
deriving DecidableEq, Repr

deriving instance DecidableEq for Except

/-- Mutation events, used to state the store-before-index ordering rule
(spec section 4.4). -/
inductive Event where
  | storeInsert
  | storeUpdate
  | storeDelete
  | indexAdd
  | indexUpdate
  | indexDelete
deriving DecidableEq, Repr

/-- Whether an event mutates the record store. -/
def Event.isStore : Event → Bool
  | .storeInsert => true
  | .storeUpdate => true
  | .storeDelete => true
  | _ => false

/-- The combined state the synchronizer acts on: record store plus search
index (the `db, ix` pair threaded through `journaldb/models.py`). -/
structure JState where
  db : DB
  ix : List IndexDoc
deriving DecidableEq, Repr

/-- Translation of `add_entry_to_index` (`journaldb/models.py` lines
34-46): `writer.add_document(id=str(entry_id), title, content, date,
tags)` followed by commit. -/
def add_entry_to_index (ix : List IndexDoc) (entry_id : Nat)
    (title content : String) (date : Date) (tags : String) : List IndexDoc :=
  ixAddDocument ix { id := entry_id, title := title, content := content,
                     date := date, tags := tags }

/-- Translation of `create_entry` (`journaldb/models.py` lines 49-59):
insert the row, re-fetch it by the `(title, date)` natural key, then add
an index document under the fetched row's id.  Subscripting the `id` of a
`None` fetch result would raise `TypeError`; that branch is proved dead
below. -/
def create_entry (s : JState) (title content : String) (date : Date)
    (tags : String) : Except PyErr (JState × List Event) :=
  let db1 := s.db.create title content date tags
  match db1.getByTitleDate title date with
  | none => .error .typeError
  | some e =>
      .ok ({ db := db1, ix := add_entry_to_index s.ix e.id title content date tags },
           [.storeInsert, .indexAdd])

/-- Translation of `update_entry_in_index` (`journaldb/models.py` lines
62-74): `writer.update_document` keyed by the unique `id` field. -/
def update_entry_in_index (ix : List IndexDoc) (entry_id : Nat)
    (title content : String) (date : Date) (tags : String) : List IndexDoc :=
  ixUpdateDocument ix { id := entry_id, title := title, content := content,
                        date := date, tags := tags }

/-- Python truthiness of an optional string argument (`if title:` in
`update_entry`): `None` and the empty string are falsy. -/
def truthyStr : Option String → Bool
  | none => false
  | some s => !(s == "")

/-- Python truthiness of an optional `datetime` argument: every
`datetime` object is truthy, only `None` is falsy. -/
def truthyDate : Option Date → Bool
  | none => false
  | some _ => true

/-- The `updated_fields` dict built by `update_entry` (`journaldb/models.py`
lines 90-98): a field is part of the diff exactly when the corresponding
argument is truthy. -/
def buildUpdates (title content : Option String) (date : Option Date)
    (tags : Option String) : Updates :=
  { title := if truthyStr title then title else none,
    content := if truthyStr content then content else none,
    date := if truthyDate date then date else none,
    tags := if truthyStr tags then tags else none }

/-- Translation of `update_entry` (`journaldb/models.py` lines 77-106):
fetch by id (print-and-return when absent), build the diff from the
truthy arguments, update the store, re-fetch, then upsert the full
re-fetched record into the index under `entry_id`. -/
def update_entry (s : JState) (entry_id : Nat) (title content : Option String)
    (date : Option Date) (tags : Option String) : Except PyErr (JState × List Event) :=
  match s.db.getById entry_id with
  | none => .ok (s, [])
  | some _ =>
      let db1 := s.db.update entry_id (buildUpdates title content date tags)
      match db1.getById entry_id with
      | none => .error .typeError
      | some e1 =>
          .ok ({ db := db1,
                 ix := update_entry_in_index s.ix entry_id e1.title e1.content e1.date e1.tags },
               [.storeUpdate, .indexUpdate])

/-- Translation of `delete_entry_from_index` (`journaldb/models.py` lines
109-115): `writer.delete_by_term('id', str(entry_id))`. -/
def delete_entry_from_index (ix : List IndexDoc) (entry_id : Nat) : List IndexDoc :=
  ixDeleteByTerm ix entry_id

/-- Translation of `delete_entry` (`journaldb/models.py` lines 118-135):
fetch by id (print-and-return when absent), delete the row, then delete
the index document. -/
def delete_entry (s : JState) (entry_id : Nat) : Except PyErr (JState × List Event) :=
  match s.db.getById entry_id with
  | none => .ok (s, [])
  | some _ =>
      .ok ({ db := s.db.deleteById entry_id, ix := delete_entry_from_index s.ix entry_id },
           [.storeDelete, .indexDelete])

/-- Split a character list into its maximal whitespace-free words;
`cur` accumulates the (reversed) word currently being read. -/
def tokensAux (cur : List Char) : List Char → List (List Char)
  | [] => if cur = [] then [] else [cur.reverse]
  | c :: rest =>
      if c.isWhitespace then
        (if cur = [] then tokensAux [] rest else cur.reverse :: tokensAux [] rest)
      else tokensAux (c :: cur) rest

/-- Modelled from the spec: the query engine's tokenization.  The engine
is external (whoosh's `MultifieldParser`); the spec describes the query as
matching the free text "against the union of title, content, tags fields,
OR-combined" (spec section 4.5).  Terms are the whitespace-separated
words of the text. -/
def tokens (l : List Char) : List (List Char) :=
  tokensAux [] l

/-- Modelled from the spec: whether an indexed document matches a term in
one of the `title`, `content`, `tags` fields (spec section 4.5, step 1). -/
def docMatches (d : IndexDoc) (terms : List (List Char)) : Bool :=
  terms.any (fun t =>
    (tokens d.title.data).contains t ||
    (tokens d.content.data).contains t ||
    (tokens d.tags.data).contains t)

/-- Translation of `search_entries` (`journaldb/models.py` lines 138-150):
parse the query over the `title`, `content`, `tags` fields and return the
matching stored documents with a score (modelled as the number of
matching terms; the claims below depend only on result emptiness). -/
def search_entries (ix : List IndexDoc) (query_str : String) : List (IndexDoc × Nat) :=
  (ix.filter (fun d => docMatches d (tokens query_str.data))).map
    (fun d => (d, ((tokens query_str.data).filter (fun t => docMatches d [t])).length))

/-- Operations of the entry synchronizer, for stating properties of
sequences of calls (spec section 8, index-store agreement). -/
inductive Op where
  | create (title content : String) (date : Date) (tags : String)
  | update (id : Nat) (title content : Option String) (date : Option Date) (tags : Option String)
  | delete (id : Nat)
deriving DecidableEq, Repr

/-- Apply one synchronizer operation. -/
def step (s : JState) : Op → Except PyErr (JState × List Event)
  | .create t c d g => create_entry s t c d g
  | .update i t c d g => update_entry s i t c d g
  | .delete i => delete_entry s i

/-- Run a sequence of synchronizer operations. -/
def run (s : JState) : List Op → Except PyErr JState
  | [] => .ok s
  | op :: rest =>
      match step s op with
      | .error e => .error e
      | .ok (s1, _) => run s1 rest

/-- The state with an empty record store and an empty index, as produced
by `init_journal_db` (`journaldb/core.py`) on a fresh database. -/
def initState : JState :=
  { db := { rows := [], nextId := 1 }, ix := [] }

/-- Store well-formedness: every row id is below the next id the store
will assign, and row ids are pairwise distinct (spec section 3: "every
persisted Entry has a non-zero id unique across the record store"). -/
def wfDB (db : DB) : Prop :=
  (∀ e ∈ db.rows, e.id < db.nextId) ∧ (db.rows.map (fun e => e.id)).Nodup

instance (db : DB) : Decidable (wfDB db) := by
  unfold wfDB; infer_instance

/-- Index-store agreement (spec section 8): every id present in the
record store has exactly one index document, carrying exactly the stored
entry's field values, and every index document's id is present in the
store. -/
def inSync (s : JState) : Prop :=
  (∀ e ∈ s.db.rows, s.ix.filter (fun d => d.id == e.id) = [docOf e]) ∧
    (∀ d ∈ s.ix, ∃ e ∈ s.db.rows, e.id = d.id)

instance (s : JState) : Decidable (inSync s) := by
  unfold inSync; infer_instance

/-- Whether a `create` is issued in a state where its `(title, date)`
natural key is not yet taken — the uniqueness assumption of spec section
3 under which the synchronizer's id resolution is unambiguous. -/
def createSafe (s : JState) (t : String) (d : Date) : Bool :=
  s.db.rows.all (fun e => !(e.title == t && e.date == d))

/-- A run in which every `create` happens in a state where its natural
key is fresh (and no operation raises). -/
def safeRun (s : JState) : List Op → Bool
  | [] => true
  | op :: rest =>
      (match op with
       | .create t _ d _ => createSafe s t d
       | _ => true) &&
      (match step s op with
       | .ok (s1, _) => safeRun s1 rest
       | .error _ => false)

/-- Scan a trace left to right; an index mutation is only allowed once a
record-store mutation has already been seen. -/
def goodTraceFrom (seenStore : Bool) : List Event → Bool
  | [] => true
  | e :: rest => (e.isStore || seenStore) && goodTraceFrom (seenStore || e.isStore) rest

/-- The store-before-index ordering rule of spec section 4.4, as a check
on one operation's mutation trace. -/
def goodTrace (tr : List Event) : Bool :=
  goodTraceFrom false tr

/-- The mutation trace of an operation's outcome (an operation that
raises has performed the mutations recorded before the raise; in this
model every raise happens before any mutation, so the trace is empty). -/
def traceOf (r : Except PyErr (JState × List Event)) : List Event :=
  match r with
  | .ok (_, tr) => tr
  | .error _ => []

/-- The in-memory record parsed from or written to a plaintext entry
file: `JournalEntryData` of `journaldb/pageio.py` (title, tags, content,
date, id with default 0; the id is a Python int). -/
structure JournalEntryData where
  title : String
  tags : String
  content : String
  date : Date
  id : Int
deriving DecidableEq, Repr

/-- Translation of `update_data_in_db` (`journaldb/pageio.py` lines
75-89).  With `jed.id == 0` it raises `ValueError`.  Otherwise the body
evaluates `update_entry(db=..., ..., tags=tags_str)`: `tags_str` is an
undefined name, and `update_entry` itself is never imported into
`pageio.py` (line 29 imports only `create_entry`), so evaluating the call
raises `NameError` before any record-store or index access. -/
def update_data_in_db (s : JState) (jed : JournalEntryData) :
    Except PyErr (JState × List Event) :=
  if jed.id == 0 then .error (.valueError "Invalid entry ID")
  else .error .nameError

/-- A row found by an id lookup satisfies the lookup predicate, hence
carries that id. -/
lemma getById_id (db : DB) (i : Nat) (e : Entry) (h : db.getById i = some e) :
    e.id = i := by
  have h1 := List.find?_some h
  simpa using h1

/-- A row found by a natural-key lookup carries that title and date. -/
lemma getByTitleDate_fields (db : DB) (t : String) (d : Date) (e : Entry)
    (h : db.getByTitleDate t d = some e) : e.title = t ∧ e.date = d := by
  have h1 := List.find?_some h
  simpa using h1

/-- A row found by an id lookup is a member of the store. -/
lemma getById_mem (db : DB) (i : Nat) (e : Entry) (h : db.getById i = some e) :
    e ∈ db.rows :=
  List.mem_of_find?_eq_some h

/-- The natural-key lookup right after an insert always finds a row: the
freshly inserted row matches, so `find?` cannot return `none`.  This is
the `entry['id']`-on-`None` branch of `create_entry` being dead. -/
lemma create_lookup_isSome (db : DB) (t c : String) (d : Date) (g : String) :
    (db.create t c d g).getByTitleDate t d ≠ none := by
  intro hnone
  rw [DB.getByTitleDate, List.find?_eq_none] at hnone
  refine hnone { id := db.nextId, title := t, content := c, date := d, tags := g } ?_ ?_
  · simp [DB.create]
  · simp

/-- If the prefix of an appended list already contains a match, `find?`
on the appended list returns that same first match. -/
lemma find?_append_some (p : α → Bool) (l1 l2 : List α) (a : α)
    (h : l1.find? p = some a) : (l1 ++ l2).find? p = some a := by
  induction l1 with
  | nil => simp at h
  | cons x xs ih =>
      by_cases hx : p x
      · rw [List.find?_cons_of_pos _ hx] at h
        simpa [List.find?_cons_of_pos _ hx] using h
      · rw [List.find?_cons_of_neg _ hx] at h
        simpa [List.find?_cons_of_neg _ hx] using ih h

/-- In the row list, patching the rows whose id matches keeps the result
of looking up that id: the first matching row is patched in place, and
rows before it do not match. -/
lemma find?_id_map_update (l : List Entry) (i : Nat) (u : Updates) (e : Entry)
    (h : l.find? (fun x => x.id == i) = some e) :
    (l.map (fun x => if x.id == i then applyUpdates x u else x)).find?
        (fun x => x.id == i) = some (applyUpdates e u) := by
  induction l with
  | nil => simp at h
  | cons a l ih =>
      by_cases ha : a.id = i
      · have hb : (a.id == i) = true := by simpa using ha
        simp only [List.find?_cons, hb] at h
        cases h
        have hb2 : ((applyUpdates e u).id == i) = true := by simpa [applyUpdates] using ha
        simp only [List.map_cons, if_pos hb, List.find?_cons, hb2]
      · have hb : (a.id == i) = false := by simpa using ha
        simp only [List.find?_cons, hb] at h
        simp only [List.map_cons, hb, Bool.false_eq_true, if_false, List.find?_cons]
        exact ih h

/-- Updating rows by id keeps the result of looking up that id. -/
lemma getById_update (db : DB) (i : Nat) (u : Updates) (e : Entry)
    (h : db.getById i = some e) :
    (db.update i u).getById i = some (applyUpdates e u) := by
  rw [DB.getById] at h
  rw [DB.update, DB.getById]
  exact find?_id_map_update db.rows i u e h

/-- C2: in each of the three mutation operations (`create_entry`,
`update_entry`, `delete_entry`), the record-store mutation comes strictly
before the search-index mutation, and an index mutation is never
performed first: every trace an operation can produce passes the
store-before-index scan. -/
theorem C2_store_mutation_precedes_index_mutation
    (s : JState) (t c : String) (d : Date) (g : String) (i : Nat)
    (ot oc : Option String) (od : Option Date) (og : Option String) (j : Nat) :
    goodTrace (traceOf (create_entry s t c d g)) = true ∧
    goodTrace (traceOf (update_entry s i ot oc od og)) = true ∧
    goodTrace (traceOf (delete_entry s j)) = true := by
  refine ⟨?_, ?_, ?_⟩
  · cases h : (s.db.create t c d g).getByTitleDate t d <;>
      simp [create_entry, h, traceOf, goodTrace, goodTraceFrom, Event.isStore]
  · cases h : s.db.getById i with
    | none => simp [update_entry, h, traceOf, goodTrace, goodTraceFrom]
    | some e =>
        cases h2 : (s.db.update i (buildUpdates ot oc od og)).getById i <;>
          simp [update_entry, h, h2, traceOf, goodTrace, goodTraceFrom, Event.isStore]
  · cases h : s.db.getById j <;>
      simp [delete_entry, h, traceOf, goodTrace, goodTraceFrom, Event.isStore]

/-- C3, counterexample: with an entry `(title "T", date 2024-01-05)`
already stored and indexed under id 1, a second `create_entry` with the
identical natural key is not rejected: it completes normally and performs
an index mutation, adding a second document under id 1 carrying the new
content, while the new row got id 2. -/
theorem C3_counterexample :
    create_entry
      { db := { rows := [{ id := 1, title := "T", content := "c1",
                           date := { year := 2024, month := 1, day := 5 }, tags := "g" }],
                nextId := 2 },
        ix := [{ id := 1, title := "T", content := "c1",
                 date := { year := 2024, month := 1, day := 5 }, tags := "g" }] }
      "T" "c2" { year := 2024, month := 1, day := 5 } "g" =
    .ok ({ db := { rows := [{ id := 1, title := "T", content := "c1",
                              date := { year := 2024, month := 1, day := 5 }, tags := "g" },
                            { id := 2, title := "T", content := "c2",
                              date := { year := 2024, month := 1, day := 5 }, tags := "g" }],
                   nextId := 3 },
           ix := [{ id := 1, title := "T", content := "c1",
                    date := { year := 2024, month := 1, day := 5 }, tags := "g" },
                  { id := 1, title := "T", content := "c2",
                    date := { year := 2024, month := 1, day := 5 }, tags := "g" }] },
         [.storeInsert, .indexAdd]) := by
  decide

/-- C3, amended: after inserting, `create_entry` resolves the id via the
exact `(title, date)` lookup, which always finds a row (the zero-match
branch is dead, so no error is ever raised there), and when a row with
the same `(title, date)` already exists the second `create_entry` is not
rejected: it completes and adds an index document under the id of the
first matching row of the store. -/
theorem C3_amended :
    (∀ (s : JState) (t c : String) (d : Date) (g : String),
      ∃ e, (s.db.create t c d g).getByTitleDate t d = some e ∧
        create_entry s t c d g =
          .ok ({ db := s.db.create t c d g,
                 ix := add_entry_to_index s.ix e.id t c d g },
               [.storeInsert, .indexAdd])) ∧
    (∀ (s : JState) (t c : String) (d : Date) (g : String) (e0 : Entry),
      s.db.getByTitleDate t d = some e0 →
      create_entry s t c d g =
        .ok ({ db := s.db.create t c d g,
               ix := add_entry_to_index s.ix e0.id t c d g },
             [.storeInsert, .indexAdd])) := by
  constructor
  · intro s t c d g
    cases h : (s.db.create t c d g).getByTitleDate t d with
    | none => exact absurd h (create_lookup_isSome s.db t c d g)
    | some e => exact ⟨e, rfl, by simp [create_entry, h]⟩
  · intro s t c d g e0 h0
    have h1 : (s.db.create t c d g).getByTitleDate t d = some e0 := by
      rw [DB.getByTitleDate] at h0 ⊢
      rw [DB.create]
      exact find?_append_some _ _ _ _ h0
    simp [create_entry, h1]

/-- C3, amended, witness: instantiating the second part at the concrete
duplicate-key state shows the second create completing with an index add
under the pre-existing id 1. -/
theorem C3_amended_witness :
    create_entry
      { db := { rows := [{ id := 1, title := "T", content := "x1",
                           date := { year := 2023, month := 2, day := 7 }, tags := "u" }],
                nextId := 2 },
        ix := [] }
      "T" "x2" { year := 2023, month := 2, day := 7 } "v" =
    .ok ({ db := DB.create { rows := [{ id := 1, title := "T", content := "x1",
                                        date := { year := 2023, month := 2, day := 7 }, tags := "u" }],
                             nextId := 2 } "T" "x2" { year := 2023, month := 2, day := 7 } "v",
           ix := add_entry_to_index [] 1 "T" "x2" { year := 2023, month := 2, day := 7 } "v" },
         [.storeInsert, .indexAdd]) :=
  C3_amended.2
    { db := { rows := [{ id := 1, title := "T", content := "x1",
                         date := { year := 2023, month := 2, day := 7 }, tags := "u" }],
              nextId := 2 },
      ix := [] }
    "T" "x2" { year := 2023, month := 2, day := 7 } "v"
    { id := 1, title := "T", content := "x1",
      date := { year := 2023, month := 2, day := 7 }, tags := "u" }
    (by decide)

/-- C5, counterexample: `delete_entry` on an id absent from the record
store does not raise `NotFoundError` (or anything else): on the empty
store, deleting id 1 returns normally with the state unchanged and an
empty mutation trace. -/
theorem C5_counterexample :
    delete_entry initState 1 = .ok (initState, []) := by
  decide

/-- C5, amended: `delete_entry` on an id absent from the record store
prints "Entry not found!" and returns normally instead of raising
`NotFoundError`; it performs no record-store delete and no index
mutation (state unchanged, empty trace). -/
theorem C5_amended (s : JState) (i : Nat) (h : s.db.getById i = none) :
    delete_entry s i = .ok (s, []) := by
  simp [delete_entry, h]

/-- C5, amended, witness: deleting id 7 from a store holding only id 1. -/
theorem C5_amended_witness :
    delete_entry
      { db := { rows := [{ id := 1, title := "A", content := "b",
                           date := { year := 2024, month := 3, day := 9 }, tags := "t" }],
                nextId := 2 },
        ix := [] } 7 =
    .ok ({ db := { rows := [{ id := 1, title := "A", content := "b",
                              date := { year := 2024, month := 3, day := 9 }, tags := "t" }],
                   nextId := 2 },
           ix := [] }, []) :=
  C5_amended
    { db := { rows := [{ id := 1, title := "A", content := "b",
                         date := { year := 2024, month := 3, day := 9 }, tags := "t" }],
              nextId := 2 },
      ix := [] } 7 (by decide)

/-- When the entry exists, `update_entry` applies the diff to the store
and upserts the full re-fetched record into the index. -/
lemma update_entry_found (s : JState) (i : Nat) (e : Entry)
    (tt cc : Option String) (dd : Option Date) (gg : Option String)
    (he : s.db.getById i = some e) :
    update_entry s i tt cc dd gg =
      .ok ({ db := s.db.update i (buildUpdates tt cc dd gg),
             ix := update_entry_in_index s.ix i
               (applyUpdates e (buildUpdates tt cc dd gg)).title
               (applyUpdates e (buildUpdates tt cc dd gg)).content
               (applyUpdates e (buildUpdates tt cc dd gg)).date
               (applyUpdates e (buildUpdates tt cc dd gg)).tags },
           [.storeUpdate, .indexUpdate]) := by
  have h2 := getById_update s.db i (buildUpdates tt cc dd gg) e he
  simp [update_entry, he, h2]

/-- After an index upsert keyed on `i`, the documents with id `i` are
exactly the one upserted document. -/
lemma filter_update_entry_in_index (ix : List IndexDoc) (i : Nat)
    (T C : String) (D : Date) (G : String) :
    (update_entry_in_index ix i T C D G).filter (fun d => d.id == i) =
      [{ id := i, title := T, content := C, date := D, tags := G }] := by
  rw [update_entry_in_index, ixUpdateDocument, List.filter_append]
  rw [List.filter_filter]
  have h1 : ix.filter (fun d => (d.id == i) && (d.id != i)) = [] := by
    rw [List.filter_eq_nil_iff]
    intro d _
    simp [bne]
  rw [h1]
  simp

/-- C6: updating an existing entry with only the `content` argument set
(title, date, tags absent or empty) succeeds, leaves the stored title,
date and tags unchanged (only the content is replaced), and afterwards
the index documents under that id are exactly one document carrying the
full resulting record: the old title, date, tags plus the new content. -/
theorem C6_partial_update_preserves_untouched_fields
    (s : JState) (i : Nat) (e : Entry) (c : String)
    (t g : Option String) (dt : Option Date)
    (he : s.db.getById i = some e) (hc : ¬ c = "")
    (ht : truthyStr t = false) (hg : truthyStr g = false) (hdt : dt = none) :
    ∃ s1, update_entry s i t (some c) dt g = .ok (s1, [.storeUpdate, .indexUpdate]) ∧
      s1.db.getById i =
        some { id := e.id, title := e.title, content := c, date := e.date, tags := e.tags } ∧
      s1.ix.filter (fun d => d.id == i) =
        [{ id := i, title := e.title, content := c, date := e.date, tags := e.tags }] := by
  subst hdt
  have hcb : truthyStr (some c) = true := by simp [truthyStr, hc]
  have hu : buildUpdates t (some c) none g =
      { title := none, content := some c, date := none, tags := none } := by
    simp [buildUpdates, ht, hg, hcb, truthyDate]
  have happ : applyUpdates e { title := none, content := some c, date := none, tags := none } =
      { id := e.id, title := e.title, content := c, date := e.date, tags := e.tags } := by
    simp [applyUpdates]
  have heq := update_entry_found s i e t (some c) none g he
  rw [hu, happ] at heq
  have h2 := getById_update s.db i
    { title := none, content := some c, date := none, tags := none } e he
  rw [happ] at h2
  exact ⟨_, heq, h2, filter_update_entry_in_index s.ix i e.title c e.date e.tags⟩

/-- C6, witness: updating entry 1 of a one-entry store with only new
content keeps title, date and tags in both the store and the index. -/
theorem C6_witness :
    ∃ s1, update_entry
        { db := { rows := [{ id := 1, title := "A", content := "old",
                             date := { year := 2024, month := 1, day := 5 }, tags := "+t" }],
                  nextId := 2 },
          ix := [{ id := 1, title := "A", content := "old",
                   date := { year := 2024, month := 1, day := 5 }, tags := "+t" }] }
        1 none (some "new") none none = .ok (s1, [.storeUpdate, .indexUpdate]) ∧
      s1.db.getById 1 =
        some { id := 1, title := "A", content := "new",
               date := { year := 2024, month := 1, day := 5 }, tags := "+t" } ∧
      s1.ix.filter (fun d => d.id == 1) =
        [{ id := 1, title := "A", content := "new",
           date := { year := 2024, month := 1, day := 5 }, tags := "+t" }] :=
  C6_partial_update_preserves_untouched_fields
    { db := { rows := [{ id := 1, title := "A", content := "old",
                         date := { year := 2024, month := 1, day := 5 }, tags := "+t" }],
              nextId := 2 },
      ix := [{ id := 1, title := "A", content := "old",
               date := { year := 2024, month := 1, day := 5 }, tags := "+t" }] }
    1 { id := 1, title := "A", content := "old",
        date := { year := 2024, month := 1, day := 5 }, tags := "+t" }
    "new" none none none
    (by decide) (by decide) (by decide) (by decide) (by decide)

/-- C8: searching with the empty query string returns the empty result
list (not the list of all indexed entries), for every index state: the
empty text tokenizes to no terms, and the OR of no terms matches no
document. -/
theorem C8_empty_query_returns_empty (ix : List IndexDoc) :
    search_entries ix "" = [] := by
  have h : tokens ("" : String).data = [] := rfl
  simp [search_entries, h, docMatches]

/-- C10: for every state and every `JournalEntryData` with non-zero id,
the file-based update `update_data_in_db` fails with `NameError` (the
body references the undefined `tags_str`, and `update_entry` is not
imported into `pageio.py`), and no call of `update_data_in_db` ever
returns successfully, so neither store is ever mutated by it. -/
theorem C10_update_data_in_db_always_raises (s : JState) (jed : JournalEntryData) :
    (jed.id ≠ 0 → update_data_in_db s jed = .error .nameError) ∧
    ∀ r : JState × List Event, update_data_in_db s jed ≠ .ok r := by
  constructor
  · intro h
    simp [update_data_in_db, h]
  · intro r
    by_cases h : jed.id = 0 <;> simp [update_data_in_db, h]

/-- C10, witness: the file-based update of entry 5 raises `NameError`. -/
theorem C10_witness :
    update_data_in_db initState
      { title := "t", tags := "g", content := "c",
        date := { year := 2024, month := 1, day := 5 }, id := 5 } = .error .nameError :=
  (C10_update_data_in_db_always_raises initState
    { title := "t", tags := "g", content := "c",
      date := { year := 2024, month := 1, day := 5 }, id := 5 }).1 (by decide)

/-- C1, counterexample: the two-operation sequence that creates two
entries with the identical natural key `("T", 2024-01-05)` completes
without any error (and the model's index operations cannot fail, so no
`IndexDesyncError` arises), yet afterwards the store and the index
disagree: id 1 has two index documents (one stale, one carrying entry 2's
content) and id 2 has none. -/
theorem C1_counterexample :
    run initState
      [.create "T" "c1" { year := 2024, month := 1, day := 5 } "g",
       .create "T" "c2" { year := 2024, month := 1, day := 5 } "g"] =
      .ok { db := { rows := [{ id := 1, title := "T", content := "c1",
                               date := { year := 2024, month := 1, day := 5 }, tags := "g" },
                             { id := 2, title := "T", content := "c2",
                               date := { year := 2024, month := 1, day := 5 }, tags := "g" }],
                    nextId := 3 },
            ix := [{ id := 1, title := "T", content := "c1",
                     date := { year := 2024, month := 1, day := 5 }, tags := "g" },
                   { id := 1, title := "T", content := "c2",
                     date := { year := 2024, month := 1, day := 5 }, tags := "g" }] } ∧
    ¬ inSync { db := { rows := [{ id := 1, title := "T", content := "c1",
                                  date := { year := 2024, month := 1, day := 5 }, tags := "g" },
                                { id := 2, title := "T", content := "c2",
                                  date := { year := 2024, month := 1, day := 5 }, tags := "g" }],
                       nextId := 3 },
               ix := [{ id := 1, title := "T", content := "c1",
                        date := { year := 2024, month := 1, day := 5 }, tags := "g" },
                      { id := 1, title := "T", content := "c2",
                        date := { year := 2024, month := 1, day := 5 }, tags := "g" }] } := by
  constructor
  · decide
  · decide

/-- If every element of the first list fails the predicate, `find?` on
the appended list searches the second list. -/
lemma find?_append_none (p : α → Bool) (l1 l2 : List α)
    (h : ∀ a ∈ l1, p a = false) : (l1 ++ l2).find? p = l2.find? p := by
  induction l1 with
  | nil => simp
  | cons a l ih =>
      have ha : p a = false := h a (by simp)
      simp only [List.cons_append, List.find?_cons, ha]
      exact ih (fun x hx => h x (by simp [hx]))


/-- Filtering a one-document list by an id it does not carry gives the
empty list. -/
lemma filter_id_singleton_ne (x : IndexDoc) (j : Nat) (h : ¬ x.id = j) :
    [x].filter (fun d0 => d0.id == j) = [] := by
  simp [h]

/-- Filtering a one-document list by the id it carries keeps it. -/
lemma filter_id_singleton_eq (x : IndexDoc) (j : Nat) (h : x.id = j) :
    [x].filter (fun d0 => d0.id == j) = [x] := by
  simp [h]

/-- A `create_entry` whose natural key is fresh in the store succeeds,
re-finds exactly the inserted row, and preserves both store
well-formedness and index-store agreement. -/
lemma create_preserves (s : JState) (t c : String) (d : Date) (g : String)
    (hwf : wfDB s.db) (hs : inSync s) (hsafe : createSafe s t d = true) :
    create_entry s t c d g =
      .ok ({ db := s.db.create t c d g,
             ix := s.ix ++ [{ id := s.db.nextId, title := t, content := c,
                              date := d, tags := g }] },
           [.storeInsert, .indexAdd]) ∧
    wfDB (s.db.create t c d g) ∧
    inSync { db := s.db.create t c d g,
             ix := s.ix ++ [{ id := s.db.nextId, title := t, content := c,
                              date := d, tags := g }] } := by
  simp only [createSafe, List.all_eq_true, Bool.not_eq_true'] at hsafe
  have hlookup : (s.db.create t c d g).getByTitleDate t d =
      some { id := s.db.nextId, title := t, content := c, date := d, tags := g } := by
    rw [DB.getByTitleDate, DB.create]
    rw [find?_append_none _ _ _ hsafe]
    simp [List.find?_cons]
  have hixnil : s.ix.filter (fun d0 => d0.id == s.db.nextId) = [] := by
    rw [List.filter_eq_nil_iff]
    intro d0 hd0
    obtain ⟨x, hx, hxid⟩ := hs.2 d0 hd0
    have hlt := hwf.1 x hx
    simp only [beq_iff_eq]
    omega
  refine ⟨by simp [create_entry, hlookup, add_entry_to_index, ixAddDocument], ⟨?_, ?_⟩, ?_, ?_⟩
  · intro e he
    simp only [DB.create, List.mem_append, List.mem_singleton] at he ⊢
    rcases he with he | rfl
    · exact Nat.lt_succ_of_lt (hwf.1 e he)
    · exact Nat.lt_succ_self _
  · simp only [DB.create, List.map_append, List.map_cons, List.map_nil]
    rw [List.nodup_append]
    refine ⟨hwf.2, by simp, ?_⟩
    intro a ha hmem
    simp only [List.mem_singleton] at hmem
    subst hmem
    simp only [List.mem_map] at ha
    obtain ⟨e, he, hid⟩ := ha
    have := hwf.1 e he
    omega
  · intro e he
    dsimp only at he ⊢
    simp only [DB.create, List.mem_append, List.mem_singleton] at he
    rcases he with he | rfl
    · rw [List.filter_append,
        filter_id_singleton_ne _ _ (by have hlt := hwf.1 e he; show ¬ s.db.nextId = e.id; omega)]
      simpa using hs.1 e he
    · dsimp only [docOf]
      rw [List.filter_append, hixnil]
      simp
  · intro d0 hd0
    dsimp only at hd0 ⊢
    simp only [List.mem_append, List.mem_singleton] at hd0
    rcases hd0 with hd0 | rfl
    · obtain ⟨x, hx, hxid⟩ := hs.2 d0 hd0
      refine ⟨x, ?_, hxid⟩
      simp [DB.create, hx]
    · refine ⟨{ id := s.db.nextId, title := t, content := c, date := d, tags := g }, ?_, rfl⟩
      simp [DB.create]

/-- Patching rows by id leaves every row id in place. -/
lemma update_id_map (l : List Entry) (i : Nat) (u : Updates) :
    (l.map (fun x => if x.id == i then applyUpdates x u else x)).map (fun x => x.id) =
      l.map (fun x => x.id) := by
  rw [List.map_map]
  refine List.map_congr_left ?_
  intro x _
  by_cases hx : x.id = i <;> simp [hx, applyUpdates]

/-- Removing id-`i` documents does not change the documents under any
other id. -/
lemma filter_other_id (ix : List IndexDoc) (i j : Nat) (hne : ¬ j = i) :
    (ix.filter (fun x => x.id != i)).filter (fun d0 => d0.id == j) =
      ix.filter (fun d0 => d0.id == j) := by
  rw [List.filter_filter]
  refine List.filter_congr ?_
  intro a _
  by_cases ha : a.id = j
  · simp [ha, hne]
  · simp [ha]

/-- An `update_entry` call on a well-formed, agreeing state succeeds (in
either branch) and preserves well-formedness and agreement. -/
lemma update_preserves (s : JState) (i : Nat) (tt cc : Option String)
    (dd : Option Date) (gg : Option String)
    (hwf : wfDB s.db) (hs : inSync s) :
    ∃ s1 tr, update_entry s i tt cc dd gg = .ok (s1, tr) ∧ wfDB s1.db ∧ inSync s1 := by
  cases he : s.db.getById i with
  | none => exact ⟨s, [], by simp [update_entry, he], hwf, hs⟩
  | some e =>
      have heq := update_entry_found s i e tt cc dd gg he
      have he_id : e.id = i := getById_id s.db i e he
      have hmem_e : e ∈ s.db.rows := getById_mem s.db i e he
      have hidf : ∀ x : Entry,
          ((if x.id == i then applyUpdates x (buildUpdates tt cc dd gg) else x).id) = x.id := by
        intro x
        by_cases hx : x.id = i <;> simp [hx, applyUpdates]
      refine ⟨_, _, heq, ⟨?_, ?_⟩, ?_, ?_⟩
      · intro x2 hx2
        dsimp only at hx2
        simp only [DB.update, List.mem_map] at hx2
        obtain ⟨x, hx, rfl⟩ := hx2
        dsimp only
        simp only [DB.update]
        rw [hidf x]
        exact hwf.1 x hx
      · dsimp only
        simp only [DB.update]
        rw [update_id_map]
        exact hwf.2
      · intro x2 hx2
        dsimp only at hx2 ⊢
        simp only [DB.update, List.mem_map] at hx2
        obtain ⟨x, hx, rfl⟩ := hx2
        by_cases hxi : x.id = i
        · have hxe : x = e := List.inj_on_of_nodup_map hwf.2 hx hmem_e (by rw [hxi, he_id])
          subst hxe
          have hbx : (x.id == i) = true := by simpa using hxi
          have hid1 : (applyUpdates x (buildUpdates tt cc dd gg)).id = i := by
            simp [applyUpdates, hxi]
          simp only [hbx, if_true, hid1]
          rw [filter_update_entry_in_index]
          simp [docOf, hid1]
        · have hbx : (x.id == i) = false := by simpa using hxi
          simp only [hbx, Bool.false_eq_true, if_false]
          simp only [update_entry_in_index, ixUpdateDocument, List.filter_append]
          rw [filter_id_singleton_ne _ _ (by show ¬ i = x.id; omega)]
          rw [filter_other_id s.ix i x.id hxi]
          simpa using hs.1 x hx
      · intro d0 hd0
        dsimp only at hd0
        simp only [update_entry_in_index, ixUpdateDocument, List.mem_append,
          List.mem_singleton] at hd0
        rcases hd0 with hd0 | rfl
        · have hd0ix : d0 ∈ s.ix := List.mem_of_mem_filter hd0
          obtain ⟨x, hx, hxid⟩ := hs.2 d0 hd0ix
          refine ⟨if x.id == i then applyUpdates x (buildUpdates tt cc dd gg) else x, ?_, ?_⟩
          · dsimp only
            simp only [DB.update]
            exact List.mem_map_of_mem _ hx
          · rw [hidf x]
            exact hxid
        · refine ⟨if e.id == i then applyUpdates e (buildUpdates tt cc dd gg) else e, ?_, ?_⟩
          · dsimp only
            simp only [DB.update]
            exact List.mem_map_of_mem _ hmem_e
          · dsimp only
            rw [hidf e, he_id]

/-- A `delete_entry` call on a well-formed, agreeing state succeeds (in
either branch) and preserves well-formedness and agreement. -/
lemma delete_preserves (s : JState) (i : Nat) (hwf : wfDB s.db) (hs : inSync s) :
    ∃ s1 tr, delete_entry s i = .ok (s1, tr) ∧ wfDB s1.db ∧ inSync s1 := by
  cases he : s.db.getById i with
  | none => exact ⟨s, [], by simp [delete_entry, he], hwf, hs⟩
  | some e =>
      refine ⟨{ db := s.db.deleteById i, ix := delete_entry_from_index s.ix i },
        [.storeDelete, .indexDelete], by simp [delete_entry, he], ⟨?_, ?_⟩, ?_, ?_⟩
      · intro x hx
        dsimp only at hx ⊢
        simp only [DB.deleteById] at hx ⊢
        exact hwf.1 x (List.mem_of_mem_filter hx)
      · dsimp only
        simp only [DB.deleteById]
        exact hwf.2.sublist ((List.filter_sublist _).map _)
      · intro x hx
        dsimp only at hx ⊢
        simp only [DB.deleteById, List.mem_filter] at hx
        obtain ⟨hxmem, hxne⟩ := hx
        have hxnei : ¬ x.id = i := by simpa using hxne
        simp only [delete_entry_from_index, ixDeleteByTerm]
        rw [filter_other_id s.ix i x.id hxnei]
        exact hs.1 x hxmem
      · intro d0 hd0
        dsimp only at hd0 ⊢
        simp only [delete_entry_from_index, ixDeleteByTerm, List.mem_filter] at hd0
        obtain ⟨hd0mem, hd0ne⟩ := hd0
        obtain ⟨x, hx, hxid⟩ := hs.2 d0 hd0mem
        refine ⟨x, ?_, hxid⟩
        simp only [DB.deleteById, List.mem_filter]
        refine ⟨hx, ?_⟩
        rw [hxid]
        exact hd0ne

/-- C1, amended: index-store agreement holds on the happy path only under
the natural-key uniqueness assumption of spec section 3.  For every
sequence of `create_entry`/`update_entry`/`delete_entry` calls in which
each create is issued while its `(title, date)` natural key is absent
from the store, the run completes without error and afterwards every id
present in the record store has exactly one index document carrying the
stored entry's current `title`, `content`, `date`, `tags`, and every id
absent from the store has no index document.  (Without that assumption
the property fails; see the counterexample.) -/
theorem C1_index_store_agreement (ops : List Op) : ∀ (s : JState),
    wfDB s.db → inSync s → safeRun s ops = true →
    ∃ s1, run s ops = .ok s1 ∧ wfDB s1.db ∧ inSync s1 := by
  induction ops with
  | nil =>
      intro s hwf hs _
      exact ⟨s, rfl, hwf, hs⟩
  | cons op rest ih =>
      intro s hwf hs hsafe
      cases op with
      | create t c d g =>
          simp only [safeRun, Bool.and_eq_true] at hsafe
          obtain ⟨hpre, hrest⟩ := hsafe
          obtain ⟨heq, hwf1, hs1⟩ := create_preserves s t c d g hwf hs hpre
          have hstep : step s (Op.create t c d g) = create_entry s t c d g := rfl
          rw [hstep, heq] at hrest
          obtain ⟨s2, hrun, hwf2, hs2⟩ := ih _ hwf1 hs1 hrest
          refine ⟨s2, ?_, hwf2, hs2⟩
          rw [run, hstep, heq]
          exact hrun
      | update i tt cc dd gg =>
          simp only [safeRun, Bool.true_and] at hsafe
          obtain ⟨s1, tr, heq, hwf1, hs1⟩ := update_preserves s i tt cc dd gg hwf hs
          have hstep : step s (Op.update i tt cc dd gg) = update_entry s i tt cc dd gg := rfl
          rw [hstep, heq] at hsafe
          obtain ⟨s2, hrun, hwf2, hs2⟩ := ih s1 hwf1 hs1 hsafe
          refine ⟨s2, ?_, hwf2, hs2⟩
          rw [run, hstep, heq]
          exact hrun
      | delete i =>
          simp only [safeRun, Bool.true_and] at hsafe
          obtain ⟨s1, tr, heq, hwf1, hs1⟩ := delete_preserves s i hwf hs
          have hstep : step s (Op.delete i) = delete_entry s i := rfl
          rw [hstep, heq] at hsafe
          obtain ⟨s2, hrun, hwf2, hs2⟩ := ih s1 hwf1 hs1 hsafe
          refine ⟨s2, ?_, hwf2, hs2⟩
          rw [run, hstep, heq]
          exact hrun

/-- C1, amended, witness: a create / content-update / create / delete
sequence with distinct natural keys, run from the initial state, ends in
an agreeing state. -/
theorem C1_index_store_agreement_witness :
    ∃ s1, run initState
        [.create "Day One" "Walked far." { year := 2024, month := 1, day := 5 } "+hike",
         .update 1 none (some "Walked farther.") none none,
         .create "Day Two" "Rested." { year := 2024, month := 1, day := 6 } "+rest",
         .delete 1] = .ok s1 ∧ wfDB s1.db ∧ inSync s1 :=
  C1_index_store_agreement
    [.create "Day One" "Walked far." { year := 2024, month := 1, day := 5 } "+hike",
     .update 1 none (some "Walked farther.") none none,
     .create "Day Two" "Rested." { year := 2024, month := 1, day := 6 } "+rest",
     .delete 1]
    initState (by decide) (by decide) (by decide)

/-- The decimal digit characters, for serializing numbers. -/
def digitChar : Nat → Char
  | 0 => '0'
  | 1 => '1'
  | 2 => '2'
  | 3 => '3'
  | 4 => '4'
  | 5 => '5'
  | 6 => '6'
  | 7 => '7'
  | 8 => '8'
  | 9 => '9'
  | _ => '*'

/-- Numeric value of a digit character. -/
def charVal (c : Char) : Nat :=
  c.toNat - 48

/-- Read a digit string (most significant first) as a number. -/
def digitsToNat (l : List Char) : Nat :=
  l.foldl (fun a c => a * 10 + charVal c) 0

/-- Fuel-bounded digit expansion (structural recursion on the fuel so
that the kernel can evaluate it; any fuel above the digit count gives
the same result). -/
def natDigitsF : Nat → Nat → List Char
  | 0, _ => []
  | fuel + 1, n =>
      if n < 10 then [digitChar n]
      else natDigitsF fuel (n / 10) ++ [digitChar (n % 10)]

/-- The decimal digits of a number, most significant first. -/
def natDigits (n : Nat) : List Char :=
  natDigitsF (n + 1) n

/-- A non-empty all-digit string. -/
def isDigits (l : List Char) : Bool :=
  !l.isEmpty && l.all Char.isDigit

/-- Python's decimal rendering of an `int` (used for the `id` header
value). -/
def intChars (i : Int) : List Char :=
  if i < 0 then '-' :: natDigits i.natAbs else natDigits i.toNat

/-- Parse a non-empty digit string. -/
def parseNat (l : List Char) : Option Nat :=
  if isDigits l then some (digitsToNat l) else none

/-- Modelled from the spec: the YAML scalar resolution of an integer
header value (a canonical decimal literal, optionally negative). -/
def parseInt (l : List Char) : Option Int :=
  match l with
  | '-' :: rest => (parseNat rest).map (fun (n : Nat) => -(n : Int))
  | _ => (parseNat l).map (fun (n : Nat) => (n : Int))

/-- `strftime('%Y-%m-%d')` (`journaldb/pageio.py` line 99): four-digit
year and zero-padded two-digit month and day, dash-separated. -/
def formatDate (d : Date) : List Char :=
  List.leftpad 4 '0' (natDigits d.year) ++ '-' ::
    (List.leftpad 2 '0' (natDigits d.month) ++ '-' :: List.leftpad 2 '0' (natDigits d.day))

/-- Split a character list at every occurrence of one character (the
pieces do not contain the separator; used for header lines and for the
date fields). -/
def splitChar (c : Char) : List Char → List (List Char)
  | [] => [[]]
  | a :: rest =>
      if a = c then [] :: splitChar c rest
      else
        match splitChar c rest with
        | [] => [[a]]
        | l :: ls => (a :: l) :: ls

/-- `datetime.strptime(value, '%Y-%m-%d')` (`journaldb/pageio.py` line
51): exactly four year digits, one or two month and day digits, the
whole string consumed, and the resulting calendar date validated. -/
def parseDate (l : List Char) : Option Date :=
  match splitChar '-' l with
  | [ys, ms, ds] =>
      if isDigits ys && ys.length == 4 && isDigits ms && ms.length ≤ 2
          && isDigits ds && ds.length ≤ 2
          && 1 ≤ digitsToNat ys
          && 1 ≤ digitsToNat ms && digitsToNat ms ≤ 12
          && 1 ≤ digitsToNat ds
          && digitsToNat ds ≤ daysInMonth (digitsToNat ys) (digitsToNat ms)
      then some { year := digitsToNat ys, month := digitsToNat ms, day := digitsToNat ds }
      else none
  | _ => none

/-- Split a character list at the first occurrence of `sep`, like
Python's `text.split(sep, 1)`: `none` when `sep` does not occur. -/
def subSplit (sep : List Char) : List Char → Option (List Char × List Char)
  | [] => if sep.isEmpty then some ([], []) else none
  | a :: rest =>
      if sep.isPrefixOf (a :: rest) then some ([], (a :: rest).drop sep.length)
      else
        match subSplit sep rest with
        | some (x, y) => some (a :: x, y)
        | none => none

/-- Python's `sep in text` containment test. -/
def containsSub (l sep : List Char) : Bool :=
  (subSplit sep l).isSome

/-- The `---` header delimiter of the plaintext entry format
(`journaldb/pageio.py` lines 44-45, spec section 6). -/
def marker : List Char :=
  ['-', '-', '-']

/-- Python's `str.strip()`: drop leading and trailing whitespace. -/
def trimChars (l : List Char) : List Char :=
  ((l.dropWhile Char.isWhitespace).reverse.dropWhile Char.isWhitespace).reverse

/-- Modelled from the spec: one `key: value` line of the dumped header.
YAML header (de)serialization is out of scope for the design ("treated
as a structured key-value parser", spec section 1); `yaml.dump(...,
default_flow_style=False)` writes each scalar entry as its own
`key: value` line. -/
def headerLine (k v : List Char) : List Char :=
  k ++ ':' :: ' ' :: (v ++ ['\n'])

/-- Modelled from the spec: the dumped YAML header of
`write_data_to_file` (`journaldb/pageio.py` lines 96-105).  `yaml.dump`
sorts keys, so the lines appear in the order date, id, tags, title; the
`if v is not None` filter keeps all four keys since none of the values
is `None` (in particular `id` is always emitted, `0` included); the date
value is the `strftime('%Y-%m-%d')` string. -/
def dumpHeader (jed : JournalEntryData) : List Char :=
  headerLine "date".data (formatDate jed.date) ++
    (headerLine "id".data (intChars jed.id) ++
      (headerLine "tags".data jed.tags.data ++ headerLine "title".data jed.title.data))

/-- Translation of `write_data_to_file` (`journaldb/pageio.py` lines
92-107), with the written file content returned as the text: `---`,
newline, dumped header, `---`, blank line, body. -/
def write_data_to_file (jed : JournalEntryData) : List Char :=
  marker ++ '\n' :: (dumpHeader jed ++ (marker ++ '\n' :: '\n' :: jed.content.data))

/-- Translation of `write_template_file` (`journaldb/pageio.py` lines
110-121): the fixed placeholder document with today's date and the given
entry id.  `datetime.today()` is ambient state, so the current date is a
parameter. -/
def write_template_file (today : Date) (entryid : Int) : List Char :=
  write_data_to_file { title := "post title", tags := "+tag1, +tag2",
                       content := "Write stuff here.", date := today, id := entryid }

/-- Modelled from the spec: `yaml.safe_load` of the header block, as the
structured key-value parser of spec section 1: one `key: value` pair per
non-empty line, keys and values plain text.  Returns `none` when a
non-empty line has no `key: value` shape. -/
def parseHeaderLines : List (List Char) → Option (List (List Char × List Char))
  | [] => some []
  | line :: rest =>
      if line.isEmpty then parseHeaderLines rest
      else
        match subSplit [':', ' '] line, parseHeaderLines rest with
        | some kv, some l => some (kv :: l)
        | _, _ => none

/-- Parse the raw header block into key-value pairs. -/
def loadHeader (header : List Char) : Option (List (List Char × List Char)) :=
  parseHeaderLines (splitChar '\n' header)

/-- Dictionary lookup in the parsed header. -/
def lookupKey (hd : List (List Char × List Char)) (k : List Char) : Option (List Char) :=
  (hd.find? (fun p => p.1 == k)).map (fun p => p.2)

/-- The keys `parse_file` requires (`journaldb/pageio.py` line 49). -/
def requiredHeaderKeys : List (List Char) :=
  ["title".data, "tags".data, "date".data]

/-- The constant message of the missing-key error
(`journaldb/pageio.py` line 50); it names all three required keys
whatever the actually missing keys are. -/
def missingKeysMsg : String :=
  "YAML header must contain 'title', 'tags', and 'date'."

/-- The tail of `parse_file` (`journaldb/pageio.py` lines 48-58) applied
to the split header and body: load the header, require `title`, `tags`,
`date`, parse the date, strip the body, and default `id` to 0 when the
key is absent.  (A present `id` value is modelled as a canonical integer
literal; the Python code would store a non-integer value unchecked.) -/
def parseHeaderAndBody (header body : List Char) : Except PyErr JournalEntryData :=
  match loadHeader header with
  | none => .error (.valueError "yaml: could not parse header block")
  | some hd =>
      if requiredHeaderKeys.all (fun k => (lookupKey hd k).isSome) then
        match parseDate ((lookupKey hd "date".data).getD []) with
        | none => .error (.valueError "time data does not match format '%Y-%m-%d'")
        | some dt =>
            .ok { title := String.mk ((lookupKey hd "title".data).getD []),
                  tags := String.mk ((lookupKey hd "tags".data).getD []),
                  content := String.mk (trimChars body),
                  date := dt,
                  id := match lookupKey hd "id".data with
                        | none => 0
                        | some v => (parseInt v).getD 0 }
      else .error (.valueError missingKeysMsg)

/-- Translation of `parse_file` (`journaldb/pageio.py` lines 41-58),
with the file content passed as the text: require the `---` marker
(`ValueError` with the fixed message otherwise), split at its first two
occurrences (the one-marker case raises the tuple-unpacking
`ValueError`), then parse header and body.  The `none` branch of the
first split is dead (`containsSub` guarantees an occurrence). -/
def parse_file (text : List Char) : Except PyErr JournalEntryData :=
  if containsSub text marker then
    match subSplit marker text with
    | none => .error .typeError
    | some (_, rest) =>
        match subSplit marker rest with
        | none => .error (.valueError "not enough values to unpack (expected 2, got 1)")
        | some (header, body) => parseHeaderAndBody header body
  else .error (.valueError "File format incorrect. YAML header not found.")

/-- Translation of `add_data_to_db` (`journaldb/pageio.py` lines 61-72):
delegate to `create_entry` with the parsed document's fields. -/
def add_data_to_db (s : JState) (jed : JournalEntryData) : Except PyErr (JState × List Event) :=
  create_entry s jed.title jed.content jed.date jed.tags

/-- A digit character decodes back to its value. -/
lemma charVal_digitChar (d : Nat) (h : d < 10) : charVal (digitChar d) = d := by
  interval_cases d <;> decide

/-- Digit characters are digits. -/
lemma digitChar_isDigit (d : Nat) (h : d < 10) : (digitChar d).isDigit = true := by
  interval_cases d <;> decide

/-- A digit character is not a dash, newline, colon or space. -/
lemma isDigit_ne (c : Char) (h : c.isDigit = true) :
    ¬ c = '-' ∧ ¬ c = '\n' ∧ ¬ c = ':' ∧ ¬ c = ' ' := by
  refine ⟨?_, ?_, ?_, ?_⟩ <;> intro heq <;> rw [heq] at h <;> exact absurd h (by decide)


/-- Any sufficient fuel computes the same digit expansion. -/
lemma natDigitsF_invariant (n : Nat) : ∀ f1 f2, n < f1 → n < f2 →
    natDigitsF f1 n = natDigitsF f2 n := by
  induction n using Nat.strong_induction_on with
  | _ n ih =>
      intro f1 f2 h1 h2
      match f1, f2 with
      | fa + 1, fb + 1 =>
          simp only [natDigitsF]
          by_cases h10 : n < 10
          · simp [h10]
          · simp only [h10, if_false]
            have hdiv : n / 10 < n := Nat.div_lt_self (by omega) (by omega)
            rw [ih (n / 10) hdiv fa fb (by omega) (by omega)]

/-- One-step unfolding of the fuel-bounded expansion. -/
lemma natDigitsF_succ (fuel n : Nat) : natDigitsF (fuel + 1) n =
    if n < 10 then [digitChar n]
    else natDigitsF fuel (n / 10) ++ [digitChar (n % 10)] := rfl

/-- The recursive unfolding of `natDigits`. -/
lemma natDigits_unfold (n : Nat) : natDigits n =
    if n < 10 then [digitChar n]
    else natDigits (n / 10) ++ [digitChar (n % 10)] := by
  rw [natDigits, natDigitsF_succ]
  by_cases h10 : n < 10
  · simp [h10]
  · have hdiv : n / 10 < n := Nat.div_lt_self (by omega) (by omega)
    simp only [h10, if_false]
    rw [natDigits, natDigitsF_invariant (n / 10) n (n / 10 + 1) hdiv (by omega)]

/-- A digit expansion is never empty. -/
lemma natDigits_ne_nil (n : Nat) : natDigits n ≠ [] := by
  rw [natDigits_unfold]
  by_cases h10 : n < 10 <;> simp [h10]

/-- Every character of a digit expansion is a digit. -/
lemma natDigits_all_digit (n : Nat) : ∀ c ∈ natDigits n, c.isDigit = true := by
  induction n using Nat.strong_induction_on with
  | _ n ih =>
      intro c hc
      rw [natDigits_unfold] at hc
      by_cases h10 : n < 10
      · simp only [h10, if_true, List.mem_singleton] at hc
        subst hc
        exact digitChar_isDigit n h10
      · simp only [h10, if_false, List.mem_append, List.mem_singleton] at hc
        rcases hc with hc | rfl
        · exact ih (n / 10) (Nat.div_lt_self (by omega) (by omega)) c hc
        · exact digitChar_isDigit (n % 10) (Nat.mod_lt n (by omega))

/-- Reading digits after appending one digit. -/
lemma digitsToNat_append_digit (xs : List Char) (c : Char) :
    digitsToNat (xs ++ [c]) = digitsToNat xs * 10 + charVal c := by
  simp [digitsToNat, List.foldl_append]

/-- Digit expansion round-trips through reading. -/
lemma digitsToNat_natDigits (n : Nat) : digitsToNat (natDigits n) = n := by
  induction n using Nat.strong_induction_on with
  | _ n ih =>
      rw [natDigits_unfold]
      by_cases h10 : n < 10
      · simp only [h10, if_true]
        simp [digitsToNat, charVal_digitChar n h10]
      · simp only [h10, if_false]
        rw [digitsToNat_append_digit,
          ih (n / 10) (Nat.div_lt_self (by omega) (by omega)),
          charVal_digitChar (n % 10) (Nat.mod_lt n (by omega))]
        omega

/-- The digit expansion of a number below `10 ^ (k + 1)` has at most
`k + 1` digits. -/
lemma natDigits_length_le (k : Nat) : ∀ n, n < 10 ^ (k + 1) →
    (natDigits n).length ≤ k + 1 := by
  induction k with
  | zero =>
      intro n hn
      have hn10 : n < 10 := by simpa using hn
      rw [natDigits_unfold]
      simp [hn10]
  | succ k ih =>
      intro n hn
      rw [natDigits_unfold]
      by_cases h10 : n < 10
      · simp [h10]
      · simp only [h10, if_false, List.length_append, List.length_singleton]
        have hdiv : n / 10 < 10 ^ (k + 1) := by
          rw [Nat.div_lt_iff_lt_mul (by omega)]
          calc n < 10 ^ (k + 2) := hn
          _ = 10 ^ (k + 1) * 10 := by ring
        have := ih (n / 10) hdiv
        omega

/-- Leading zero characters do not change the value read. -/
lemma digitsToNat_replicate_zero (k : Nat) (l : List Char) :
    digitsToNat (List.replicate k '0' ++ l) = digitsToNat l := by
  induction k with
  | zero => simp
  | succ k ih =>
      have : List.replicate (k + 1) '0' ++ l = '0' :: (List.replicate k '0' ++ l) := by
        simp [List.replicate_succ]
      rw [this]
      simpa [digitsToNat, charVal] using ih

/-- Zero-padding on the left does not change the value read. -/
lemma digitsToNat_leftpad (k : Nat) (l : List Char) :
    digitsToNat (List.leftpad k '0' l) = digitsToNat l := by
  rw [List.leftpad, digitsToNat_replicate_zero]

/-- A non-empty list whose characters are all digits passes `isDigits`. -/
lemma isDigits_eq_true (l : List Char) (hne : l ≠ []) (h : ∀ c ∈ l, c.isDigit = true) :
    isDigits l = true := by
  rw [isDigits, Bool.and_eq_true]
  constructor
  · rw [Bool.not_eq_true']
    cases l with
    | nil => exact absurd rfl hne
    | cons a t => rfl
  · rw [List.all_eq_true]
    exact h

/-- Zero-padding an all-digit string keeps it all-digit and non-empty. -/
lemma isDigits_leftpad (k : Nat) (l : List Char) (hne : l ≠ [])
    (h : ∀ c ∈ l, c.isDigit = true) : isDigits (List.leftpad k '0' l) = true := by
  rw [List.leftpad]
  refine isDigits_eq_true _ (by simp [List.append_eq_nil, hne]) ?_
  intro c hc
  simp only [List.mem_append, List.mem_replicate] at hc
  rcases hc with ⟨_, rfl⟩ | hc
  · decide
  · exact h c hc

/-- Parsing the digit expansion gives the number back. -/
lemma parseNat_natDigits (n : Nat) : parseNat (natDigits n) = some n := by
  rw [parseNat,
    if_pos (isDigits_eq_true _ (natDigits_ne_nil n) (natDigits_all_digit n)),
    digitsToNat_natDigits]

/-- Parsing Python's rendering of an `int` gives the value back. -/
lemma parseInt_intChars (i : Int) : parseInt (intChars i) = some i := by
  by_cases hi : i < 0
  · rw [intChars, if_pos hi]
    have : parseInt ('-' :: natDigits i.natAbs) =
        (parseNat (natDigits i.natAbs)).map (fun (n : Nat) => -(n : Int)) := rfl
    rw [this, parseNat_natDigits]
    have h2 : -((i.natAbs : Nat) : Int) = i := by omega
    show some (-((i.natAbs : Nat) : Int)) = some i
    rw [h2]
  · rw [intChars, if_neg hi]
    cases hl : natDigits i.toNat with
    | nil => exact absurd hl (natDigits_ne_nil _)
    | cons c t =>
        have hc : c.isDigit = true := natDigits_all_digit _ c (by rw [hl]; simp)
        have hcne : ¬ c = '-' := (isDigit_ne c hc).1
        unfold parseInt
        split
        · rename_i heq2
          exact absurd (by injection heq2) hcne
        · rw [← hl, parseNat_natDigits]
          have h2 : ((i.toNat : Nat) : Int) = i := by omega
          show some ((i.toNat : Nat) : Int) = some i
          rw [h2]

/-- A list without the separator splits into itself. -/
lemma splitChar_no_sep (c : Char) (l : List Char) (h : ∀ a ∈ l, ¬ a = c) :
    splitChar c l = [l] := by
  induction l with
  | nil => rfl
  | cons a t ih =>
      have ha : ¬ a = c := h a (by simp)
      simp only [splitChar, if_neg ha, ih (fun x hx => h x (by simp [hx]))]

/-- Splitting at the first separator occurrence after a clean piece. -/
lemma splitChar_append_cons (c : Char) (x y : List Char) (h : ∀ a ∈ x, ¬ a = c) :
    splitChar c (x ++ c :: y) = x :: splitChar c y := by
  induction x with
  | nil => simp [splitChar]
  | cons a t ih =>
      have ha : ¬ a = c := h a (by simp)
      simp only [List.cons_append, splitChar, List.append_eq, if_neg ha,
        ih (fun z hz => h z (by simp [hz]))]

/-- Every character of a zero-padded digit expansion is a digit. -/
lemma leftpad_digits_mem (k n : Nat) :
    ∀ c ∈ List.leftpad k '0' (natDigits n), c.isDigit = true := by
  intro c hc
  rw [List.leftpad] at hc
  simp only [List.mem_append, List.mem_replicate] at hc
  rcases hc with ⟨_, rfl⟩ | hc
  · decide
  · exact natDigits_all_digit n c hc

/-- No character of a zero-padded digit expansion is a dash. -/
lemma leftpad_digits_ne_dash (k n : Nat) :
    ∀ c ∈ List.leftpad k '0' (natDigits n), ¬ c = '-' :=
  fun c hc => (isDigit_ne c (leftpad_digits_mem k n c hc)).1

/-- Parsing the formatted date gives the date back, for dates in the
fixed format's domain. -/
lemma parseDate_formatDate (d : Date) (h : d.valid = true) :
    parseDate (formatDate d) = some d := by
  rw [Date.valid] at h
  simp only [Bool.and_eq_true, decide_eq_true_eq] at h
  obtain ⟨⟨⟨⟨⟨hy1, hy2⟩, hm1⟩, hm2⟩, hd1⟩, hd2⟩ := h
  have hsplit : splitChar '-' (formatDate d) =
      [List.leftpad 4 '0' (natDigits d.year), List.leftpad 2 '0' (natDigits d.month),
       List.leftpad 2 '0' (natDigits d.day)] := by
    rw [formatDate, splitChar_append_cons _ _ _ (leftpad_digits_ne_dash 4 d.year),
      splitChar_append_cons _ _ _ (leftpad_digits_ne_dash 2 d.month),
      splitChar_no_sep _ _ (leftpad_digits_ne_dash 2 d.day)]
  have hylen : (List.leftpad 4 '0' (natDigits d.year)).length = 4 := by
    rw [List.leftpad_length]
    have := natDigits_length_le 3 d.year (by omega)
    omega
  have hmlen : (List.leftpad 2 '0' (natDigits d.month)).length ≤ 2 := by
    rw [List.leftpad_length]
    have := natDigits_length_le 1 d.month (by omega)
    omega
  have hdlen : (List.leftpad 2 '0' (natDigits d.day)).length ≤ 2 := by
    rw [List.leftpad_length]
    have hdm : d.day < 100 := by
      have : daysInMonth d.year d.month ≤ 31 := by
        rw [daysInMonth]
        split
        · split <;> omega
        · split <;> omega
      omega
    have := natDigits_length_le 1 d.day (by omega)
    omega
  have hydig : isDigits (List.leftpad 4 '0' (natDigits d.year)) = true :=
    isDigits_leftpad _ _ (natDigits_ne_nil _) (natDigits_all_digit _)
  have hmdig : isDigits (List.leftpad 2 '0' (natDigits d.month)) = true :=
    isDigits_leftpad _ _ (natDigits_ne_nil _) (natDigits_all_digit _)
  have hddig : isDigits (List.leftpad 2 '0' (natDigits d.day)) = true :=
    isDigits_leftpad _ _ (natDigits_ne_nil _) (natDigits_all_digit _)
  have hyval : digitsToNat (List.leftpad 4 '0' (natDigits d.year)) = d.year := by
    rw [digitsToNat_leftpad, digitsToNat_natDigits]
  have hmval : digitsToNat (List.leftpad 2 '0' (natDigits d.month)) = d.month := by
    rw [digitsToNat_leftpad, digitsToNat_natDigits]
  have hdval : digitsToNat (List.leftpad 2 '0' (natDigits d.day)) = d.day := by
    rw [digitsToNat_leftpad, digitsToNat_natDigits]
  rw [parseDate, hsplit]
  simp only [hyval, hmval, hdval, hydig, hmdig, hddig, hylen, hmlen, hdlen]
  have hcond : (1 ≤ d.year) ∧ (1 ≤ d.month) ∧ (d.month ≤ 12) ∧ (1 ≤ d.day) ∧
      (d.day ≤ daysInMonth d.year d.month) := by omega
  simp only [hcond.1, hcond.2.1, hcond.2.2.1, hcond.2.2.2.1, hcond.2.2.2.2,
    decide_eq_true_eq]
  simp

/-- A non-empty separator does not occur in the empty text. -/
lemma subSplit_nil_ne (sep : List Char) (hsep : sep ≠ []) : subSplit sep [] = none := by
  unfold subSplit
  simp [List.isEmpty_eq_true, hsep]

/-- A non-empty suffix shares the last element. -/
lemma getLast?_of_suffix (s l : List Char) (h : s <:+ l) (hs : s ≠ []) :
    s.getLast? = l.getLast? := by
  obtain ⟨w, rfl⟩ := h
  exact (List.getLast?_append_of_ne_nil _ hs).symm

/-- The last element is a member. -/
lemma mem_of_getLastSome (l : List Char) (c : Char) (h : l.getLast? = some c) : c ∈ l := by
  obtain ⟨hne, rfl⟩ := List.mem_getLast?_eq_getLast (show c ∈ l.getLast? from h)
  exact List.getLast_mem hne

/-- A suffix of a list is a suffix of any extension on the left. -/
lemma suffix_cons_of_suffix (s : List Char) (a : Char) (l : List Char) (h : s <:+ l) :
    s <:+ a :: l := by
  obtain ⟨w, rfl⟩ := h
  exact ⟨a :: w, rfl⟩

/-- If the last character of `x` occurs nowhere in `sep`, then no
non-empty proper front piece of `sep` is a suffix of `x` (the junction
condition for splitting around an occurrence of `sep`). -/
lemma junction_of_getLast (sep x : List Char) (b : Char) (hb : x.getLast? = some b)
    (hsep : ∀ c ∈ sep, ¬ c = b) :
    ∀ j, 0 < j → j < sep.length → ¬ (sep.take j <:+ x) := by
  intro j hj1 hj2 hsuf
  have htne : sep.take j ≠ [] := by
    have hlen : (sep.take j).length = min j sep.length := List.length_take _ _
    intro hnil
    rw [hnil] at hlen
    simp only [List.length_nil] at hlen
    omega
  have hlast := getLast?_of_suffix _ _ hsuf htne
  rw [hb] at hlast
  have hmem : b ∈ sep.take j := mem_of_getLastSome _ _ hlast
  exact hsep b (List.take_subset j sep hmem) rfl

/-- The junction condition holds trivially for the empty front text. -/
lemma junction_of_nil (sep : List Char) :
    ∀ j, 0 < j → j < sep.length → ¬ (sep.take j <:+ ([] : List Char)) := by
  intro j hj1 hj2 hsuf
  rw [List.suffix_nil] at hsuf
  have hlen : (sep.take j).length = min j sep.length := List.length_take _ _
  rw [hsuf] at hlen
  simp only [List.length_nil] at hlen
  omega

/-- Dropping the head of a text without an occurrence leaves a text
without an occurrence. -/
lemma subSplit_cons_none_tail (sep : List Char) (a : Char) (l : List Char)
    (h : subSplit sep (a :: l) = none) : subSplit sep l = none := by
  cases hs : subSplit sep l with
  | none => rfl
  | some p =>
      exfalso
      unfold subSplit at h
      rw [hs] at h
      by_cases hp : sep.isPrefixOf (a :: l) = true <;> simp [hp] at h

/-- If `sep` occurs nowhere in the non-empty text `a :: x'` and no front
piece of `sep` ends `a :: x'`, then `sep` is not a front of
`(a :: x') ++ r`, whatever follows. -/
lemma sep_not_prefix_head (sep : List Char) (a : Char) (x' r : List Char)
    (hx : subSplit sep (a :: x') = none)
    (hj : ∀ j, 0 < j → j < sep.length → ¬ (sep.take j <:+ (a :: x'))) :
    sep.isPrefixOf ((a :: x') ++ r) = false := by
  by_contra hcon
  rw [Bool.not_eq_false] at hcon
  have hpre : sep <+: (a :: x') ++ r := List.isPrefixOf_iff_prefix.mp hcon
  by_cases hlen : sep.length ≤ (a :: x').length
  · have h1 : sep <+: (a :: x') :=
      List.prefix_of_prefix_length_le hpre (List.prefix_append _ _) hlen
    have h2 : sep.isPrefixOf (a :: x') = true := List.isPrefixOf_iff_prefix.mpr h1
    unfold subSplit at hx
    rw [h2] at hx
    simp at hx
  · push_neg at hlen
    have hax : (a :: x') <+: sep :=
      List.prefix_of_prefix_length_le (List.prefix_append _ _) hpre (by omega)
    have htake : sep.take (a :: x').length = a :: x' := by
      obtain ⟨w, hw⟩ := hax
      rw [← hw, List.take_left]
    refine hj (a :: x').length (by simp) (by omega) ?_
    rw [htake]

/-- Splitting at the first separator occurrence: with no occurrence in
`x` and no front piece of the separator ending `x`, the split of
`x ++ sep ++ y` is exactly `(x, y)`. -/
lemma subSplit_append (sep x y : List Char) (hsep : sep ≠ [])
    (h1 : subSplit sep x = none)
    (h2 : ∀ j, 0 < j → j < sep.length → ¬ (sep.take j <:+ x)) :
    subSplit sep (x ++ (sep ++ y)) = some (x, y) := by
  induction x with
  | nil =>
      simp only [List.nil_append]
      cases sep with
      | nil => exact absurd rfl hsep
      | cons s0 sp =>
          show subSplit (s0 :: sp) (s0 :: (sp ++ y)) = some ([], y)
          have hpre : (s0 :: sp).isPrefixOf (s0 :: (sp ++ y)) = true :=
            List.isPrefixOf_iff_prefix.mpr (List.prefix_append _ _)
          unfold subSplit
          rw [hpre]
          simp only [if_true]
          rw [List.length_cons, List.drop_succ_cons, List.drop_left]
  | cons a x' ih =>
      rw [List.cons_append]
      have hpre2 : sep.isPrefixOf (a :: (x' ++ (sep ++ y))) = false := by
        have := sep_not_prefix_head sep a x' (sep ++ y) h1 h2
        simpa [List.cons_append] using this
      unfold subSplit
      rw [hpre2]
      simp only [Bool.false_eq_true, if_false]
      have h1' : subSplit sep x' = none := subSplit_cons_none_tail sep a x' h1
      have h2' : ∀ j, 0 < j → j < sep.length → ¬ (sep.take j <:+ x') := by
        intro j hj1 hj2 hsuf
        exact h2 j hj1 hj2 (suffix_cons_of_suffix _ a _ hsuf)
      rw [ih h1' h2']

/-- A text starting with a character different from the separator's
first character has an occurrence only where its tail does. -/
lemma noOcc_cons (s0 : Char) (sp : List Char) (a : Char) (l : List Char)
    (ha : ¬ a = s0) (hl : subSplit (s0 :: sp) l = none) :
    subSplit (s0 :: sp) (a :: l) = none := by
  have hbeq : (s0 == a) = false := by
    simp only [beq_eq_false_iff_ne, ne_eq]
    exact fun h => ha h.symm
  have hpre : (s0 :: sp).isPrefixOf (a :: l) = false := by
    simp [List.isPrefixOf, hbeq]
  unfold subSplit
  rw [hpre, hl]
  simp

/-- A text without the separator's first character has no occurrence. -/
lemma noOcc_of_ne_head (s0 : Char) (sp : List Char) (l : List Char)
    (h : ∀ a ∈ l, ¬ a = s0) : subSplit (s0 :: sp) l = none := by
  induction l with
  | nil => exact subSplit_nil_ne _ (by simp)
  | cons a t ih =>
      exact noOcc_cons s0 sp a t (h a (by simp)) (ih (fun x hx => h x (by simp [hx])))

/-- Concatenating two occurrence-free texts with a clean junction stays
occurrence-free. -/
lemma noOcc_append (sep x y : List Char)
    (hx : subSplit sep x = none) (hy : subSplit sep y = none)
    (hj : ∀ j, 0 < j → j < sep.length → ¬ (sep.take j <:+ x)) :
    subSplit sep (x ++ y) = none := by
  induction x with
  | nil => simpa using hy
  | cons a x' ih =>
      rw [List.cons_append]
      have hpre2 : sep.isPrefixOf (a :: (x' ++ y)) = false := by
        have := sep_not_prefix_head sep a x' y hx hj
        simpa [List.cons_append] using this
      unfold subSplit
      rw [hpre2]
      simp only [Bool.false_eq_true, if_false]
      have h1' : subSplit sep x' = none := subSplit_cons_none_tail sep a x' hx
      have h2' : ∀ j, 0 < j → j < sep.length → ¬ (sep.take j <:+ x') := by
        intro j hj1 hj2 hsuf
        exact hj j hj1 hj2 (suffix_cons_of_suffix _ a _ hsuf)
      rw [ih h1' h2']

/-- A dash followed by a non-dash opens no marker occurrence. -/
lemma noOcc_marker_cons_dash (c : Char) (rest : List Char) (hc : ¬ c = '-')
    (hrec : subSplit marker (c :: rest) = none) :
    subSplit marker ('-' :: c :: rest) = none := by
  have hbeq : ('-' == c) = false := by
    simp only [beq_eq_false_iff_ne, ne_eq]
    exact fun h => hc h.symm
  have hpre : marker.isPrefixOf ('-' :: c :: rest) = false := by
    simp [marker, List.isPrefixOf, hbeq]
  unfold subSplit
  rw [hpre, hrec]
  simp

/-- A header line followed by more text, re-associated around its
terminating newline. -/
lemma headerLine_append (k v rest : List Char) :
    headerLine k v ++ rest = (k ++ ':' :: ' ' :: v) ++ '\n' :: rest := by
  simp [headerLine, List.append_assoc]

/-- A header line, re-associated around its terminating newline. -/
lemma headerLine_eq (k v : List Char) :
    headerLine k v = (k ++ ':' :: ' ' :: v) ++ '\n' :: [] := by
  simp [headerLine, List.append_assoc]

/-- A header line always ends with a newline. -/
lemma headerLine_getLast (k v : List Char) : (headerLine k v).getLast? = some '\n' := by
  rw [headerLine_eq, List.getLast?_append_of_ne_nil _ (by simp)]
  rfl

/-- A header line is never empty. -/
lemma headerLine_ne_nil (k v : List Char) : headerLine k v ≠ [] := by
  cases k <;> simp [headerLine]

/-- The dumped header always ends with a newline. -/
lemma dumpHeader_getLast (jed : JournalEntryData) :
    (dumpHeader jed).getLast? = some '\n' := by
  rw [dumpHeader,
    List.getLast?_append_of_ne_nil _ (by simp [headerLine_ne_nil]),
    List.getLast?_append_of_ne_nil _ (by simp [headerLine_ne_nil]),
    List.getLast?_append_of_ne_nil _ (headerLine_ne_nil _ _),
    headerLine_getLast]

/-- Characters of a line body: key characters, colon, space, or value
characters — no newline when key and value are newline-free. -/
lemma no_nl_body (k v : List Char) (hk : ∀ a ∈ k, ¬ a = '\n')
    (hv : ∀ a ∈ v, ¬ a = '\n') : ∀ a ∈ k ++ ':' :: ' ' :: v, ¬ a = '\n' := by
  intro a ha
  simp only [List.mem_append, List.mem_cons] at ha
  rcases ha with h | h | h | h
  · exact hk a h
  · subst h; decide
  · subst h; decide
  · exact hv a h

/-- Every character of a formatted date is a digit or a dash. -/
lemma mem_formatDate (d : Date) (a : Char) (ha : a ∈ formatDate d) :
    a.isDigit = true ∨ a = '-' := by
  rw [formatDate] at ha
  simp only [List.mem_append, List.mem_cons] at ha
  rcases ha with h | h | h | h | h
  · exact .inl (leftpad_digits_mem 4 d.year a h)
  · exact .inr h
  · exact .inl (leftpad_digits_mem 2 d.month a h)
  · exact .inr h
  · exact .inl (leftpad_digits_mem 2 d.day a h)

/-- A formatted date contains no newline. -/
lemma formatDate_no_nl (d : Date) : ∀ a ∈ formatDate d, ¬ a = '\n' := by
  intro a ha
  rcases mem_formatDate d a ha with h | rfl
  · exact (isDigit_ne a h).2.1
  · decide

/-- A rendered integer contains no newline. -/
lemma intChars_no_nl (i : Int) : ∀ a ∈ intChars i, ¬ a = '\n' := by
  intro a ha
  rw [intChars] at ha
  by_cases hi : i < 0
  · rw [if_pos hi] at ha
    simp only [List.mem_cons] at ha
    rcases ha with rfl | ha
    · decide
    · exact (isDigit_ne a (natDigits_all_digit _ a ha)).2.1
  · rw [if_neg hi] at ha
    exact (isDigit_ne a (natDigits_all_digit _ a ha)).2.1

/-- Splitting the dumped header at newlines yields its four line bodies
and a final empty piece, provided title and tags are single-line. -/
lemma splitChar_dumpHeader (jed : JournalEntryData)
    (ht : ∀ a ∈ jed.title.data, ¬ a = '\n')
    (hg : ∀ a ∈ jed.tags.data, ¬ a = '\n') :
    splitChar '\n' (dumpHeader jed) =
      [("date".data ++ ':' :: ' ' :: formatDate jed.date),
       ("id".data ++ ':' :: ' ' :: intChars jed.id),
       ("tags".data ++ ':' :: ' ' :: jed.tags.data),
       ("title".data ++ ':' :: ' ' :: jed.title.data), []] := by
  have hb1 := no_nl_body "date".data (formatDate jed.date) (by decide) (formatDate_no_nl jed.date)
  have hb2 := no_nl_body "id".data (intChars jed.id) (by decide) (intChars_no_nl jed.id)
  have hb3 := no_nl_body "tags".data jed.tags.data (by decide) hg
  have hb4 := no_nl_body "title".data jed.title.data (by decide) ht
  rw [dumpHeader, headerLine_append, splitChar_append_cons _ _ _ hb1,
    headerLine_append, splitChar_append_cons _ _ _ hb2,
    headerLine_append, splitChar_append_cons _ _ _ hb3,
    headerLine_eq, splitChar_append_cons _ _ _ hb4]
  rfl

/-- The junction condition for the `key: value` separator, from the
key not ending in a colon. -/
lemma key_junction (k : List Char) (hk : ¬ ([':'] <:+ k)) :
    ∀ j, 0 < j → j < ([':', ' '] : List Char).length →
      ¬ ((([':', ' '] : List Char).take j) <:+ k) := by
  intro j hj1 hj2
  have hj : j = 1 := by
    simp only [List.length_cons, List.length_nil] at hj2
    omega
  subst hj
  simpa using hk

/-- Splitting a dumped line at the first `': '` recovers key and value. -/
lemma parseKV_line (k v : List Char) (h1 : subSplit [':', ' '] k = none)
    (h2 : ¬ ([':'] <:+ k)) :
    subSplit [':', ' '] (k ++ ':' :: ' ' :: v) = some (k, v) := by
  have := subSplit_append [':', ' '] k v (by simp) h1 (key_junction k h2)
  simpa using this

/-- An empty line is skipped by the header parser. -/
lemma parseHeaderLines_nil_cons (rest : List (List Char)) :
    parseHeaderLines ([] :: rest) = parseHeaderLines rest := by
  rfl

/-- A well-shaped `key: value` line contributes its pair. -/
lemma parseHeaderLines_body_cons (k v : List Char) (rest : List (List Char))
    (lrest : List (List Char × List Char))
    (hkv : subSplit [':', ' '] (k ++ ':' :: ' ' :: v) = some (k, v))
    (hrest : parseHeaderLines rest = some lrest) :
    parseHeaderLines ((k ++ ':' :: ' ' :: v) :: rest) = some ((k, v) :: lrest) := by
  have hne : (k ++ ':' :: ' ' :: v).isEmpty = false := by
    cases k <;> rfl
  unfold parseHeaderLines
  rw [hne, hkv, hrest]
  simp

/-- Loading the header block written by `write_data_to_file` recovers
the four key-value pairs. -/
lemma loadHeader_dump (jed : JournalEntryData)
    (ht : ∀ a ∈ jed.title.data, ¬ a = '\n')
    (hg : ∀ a ∈ jed.tags.data, ¬ a = '\n') :
    loadHeader ('\n' :: dumpHeader jed) =
      some [("date".data, formatDate jed.date), ("id".data, intChars jed.id),
            ("tags".data, jed.tags.data), ("title".data, jed.title.data)] := by
  have hsc : splitChar '\n' ('\n' :: dumpHeader jed) =
      [] :: splitChar '\n' (dumpHeader jed) := by
    simp [splitChar]
  rw [loadHeader, hsc, splitChar_dumpHeader jed ht hg, parseHeaderLines_nil_cons]
  rw [parseHeaderLines_body_cons _ _ _ _
      (parseKV_line _ _ (by decide) (by decide)) ?h1]
  case h1 =>
    rw [parseHeaderLines_body_cons _ _ _ _
        (parseKV_line _ _ (by decide) (by decide)) ?h2]
    case h2 =>
      rw [parseHeaderLines_body_cons _ _ _ _
          (parseKV_line _ _ (by decide) (by decide)) ?h3]
      case h3 =>
        rw [parseHeaderLines_body_cons _ _ _ _
            (parseKV_line _ _ (by decide) (by decide)) ?h4]
        case h4 => rfl

/-- Leading whitespace is stripped. -/
lemma trimChars_cons_nl (l : List Char) : trimChars ('\n' :: l) = trimChars l := by
  rw [trimChars, trimChars, List.dropWhile_cons, if_pos (by decide : Char.isWhitespace '\n' = true)]

/-- Round trip of the codec: parsing a written entry file recovers every
field, with the body stripped of surrounding whitespace, provided the
dumped header contains no `---` and title and tags are single-line, and
the date lies in the fixed format's domain. -/
lemma parse_write (jed : JournalEntryData)
    (hnm : subSplit marker (dumpHeader jed) = none)
    (ht : ∀ a ∈ jed.title.data, ¬ a = '\n')
    (hg : ∀ a ∈ jed.tags.data, ¬ a = '\n')
    (hv : jed.date.valid = true) :
    parse_file (write_data_to_file jed) =
      .ok { title := jed.title, tags := jed.tags,
            content := String.mk (trimChars jed.content.data),
            date := jed.date, id := jed.id } := by
  have hs1 : subSplit marker (write_data_to_file jed) =
      some ([], '\n' :: (dumpHeader jed ++ (marker ++ '\n' :: '\n' :: jed.content.data))) := by
    rw [write_data_to_file]
    have := subSplit_append marker []
      ('\n' :: (dumpHeader jed ++ (marker ++ '\n' :: '\n' :: jed.content.data)))
      (by simp [marker]) (subSplit_nil_ne _ (by simp [marker])) (junction_of_nil _)
    simpa using this
  have hdlast : (dumpHeader jed).getLast? = some '\n' := dumpHeader_getLast jed
  have hx1 : subSplit marker ('\n' :: dumpHeader jed) = none :=
    noOcc_cons '-' ['-', '-'] '\n' (dumpHeader jed) (by decide) hnm
  have hj1 : ∀ j, 0 < j → j < marker.length →
      ¬ (marker.take j <:+ ('\n' :: dumpHeader jed)) := by
    refine junction_of_getLast marker _ '\n' ?_ ?_
    · have hne : dumpHeader jed ≠ [] := by
        intro h
        rw [h] at hdlast
        simp at hdlast
      rw [show ('\n' :: dumpHeader jed) = ['\n'] ++ dumpHeader jed from rfl,
        List.getLast?_append_of_ne_nil _ hne, hdlast]
    · intro c hc
      simp only [marker, List.mem_cons, List.not_mem_nil, or_false] at hc
      rcases hc with rfl | rfl | rfl <;> decide
  have hs2 : subSplit marker
      ('\n' :: (dumpHeader jed ++ (marker ++ '\n' :: '\n' :: jed.content.data))) =
      some ('\n' :: dumpHeader jed, '\n' :: '\n' :: jed.content.data) := by
    have := subSplit_append marker ('\n' :: dumpHeader jed)
      ('\n' :: '\n' :: jed.content.data) (by simp [marker]) hx1 hj1
    simpa [List.cons_append, List.append_assoc] using this
  have hcontains : containsSub (write_data_to_file jed) marker = true := by
    rw [containsSub, hs1]
    rfl
  rw [parse_file, if_pos hcontains, hs1]
  simp only [hs2]
  rw [parseHeaderAndBody, loadHeader_dump jed ht hg]
  have k1 : (("date".data : List Char) == "title".data) = false := by decide
  have k2 : (("id".data : List Char) == "title".data) = false := by decide
  have k3 : (("tags".data : List Char) == "title".data) = false := by decide
  have k4 : (("title".data : List Char) == "title".data) = true := by decide
  have k5 : (("date".data : List Char) == "tags".data) = false := by decide
  have k6 : (("id".data : List Char) == "tags".data) = false := by decide
  have k7 : (("tags".data : List Char) == "tags".data) = true := by decide
  have k8 : (("date".data : List Char) == "date".data) = true := by decide
  have k9 : (("date".data : List Char) == "id".data) = false := by decide
  have k10 : (("id".data : List Char) == "id".data) = true := by decide
  have l1 : lookupKey [("date".data, formatDate jed.date), ("id".data, intChars jed.id),
      ("tags".data, jed.tags.data), ("title".data, jed.title.data)] "title".data =
      some jed.title.data := by
    simp [lookupKey, List.find?_cons, k1, k2, k3, k4]
  have l2 : lookupKey [("date".data, formatDate jed.date), ("id".data, intChars jed.id),
      ("tags".data, jed.tags.data), ("title".data, jed.title.data)] "tags".data =
      some jed.tags.data := by
    simp [lookupKey, List.find?_cons, k5, k6, k7]
  have l3 : lookupKey [("date".data, formatDate jed.date), ("id".data, intChars jed.id),
      ("tags".data, jed.tags.data), ("title".data, jed.title.data)] "date".data =
      some (formatDate jed.date) := by
    simp [lookupKey, List.find?_cons, k8]
  have l4 : lookupKey [("date".data, formatDate jed.date), ("id".data, intChars jed.id),
      ("tags".data, jed.tags.data), ("title".data, jed.title.data)] "id".data =
      some (intChars jed.id) := by
    simp [lookupKey, List.find?_cons, k9, k10]
  have hall : requiredHeaderKeys.all (fun k =>
      (lookupKey [("date".data, formatDate jed.date), ("id".data, intChars jed.id),
        ("tags".data, jed.tags.data), ("title".data, jed.title.data)] k).isSome) = true := by
    simp [requiredHeaderKeys, l1, l2, l3]
  simp only [hall, if_true, l1, l2, l3, l4, Option.getD_some,
    parseDate_formatDate jed.date hv, parseInt_intChars, trimChars_cons_nl]

/-- C4, counterexample: the fully-populated document with title
`"a---b"` (non-empty title, tags, content and a valid date) does not
round-trip: the dashes inside the title are taken for the closing header
delimiter, so decoding the encoded file yields title `"a"` and the rest
of the title ends up in the body — not equal to the original in any
whitespace-insensitive sense. -/
theorem C4_counterexample :
    parse_file (write_data_to_file
        { title := "a---b", tags := "t", content := "c",
          date := { year := 2024, month := 1, day := 5 }, id := 0 }) =
      .ok { title := "a", tags := "t", content := "b\n---\n\nc",
            date := { year := 2024, month := 1, day := 5 }, id := 0 } ∧
    ¬ ("a" : String) = "a---b" := by
  constructor
  · decide
  · decide

/-- C4, amended: the round-trip law holds for every `EntryDocument`
whose dumped header contains no `---` occurrence (in particular whenever
title and tags contain no `---`) and whose title and tags are
single-line, with the date in the fixed `YYYY-MM-DD` domain: decoding
the encoded document returns a document equal in `title`, `tags`,
`date` and `id`, with `content` equal up to whitespace normalization
(stripped of surrounding whitespace). -/
theorem C4_roundtrip (d0 : JournalEntryData)
    (hnm : subSplit marker (dumpHeader d0) = none)
    (ht : ∀ a ∈ d0.title.data, ¬ a = '\n')
    (hg : ∀ a ∈ d0.tags.data, ¬ a = '\n')
    (hv : d0.date.valid = true) :
    ∃ d1, parse_file (write_data_to_file d0) = .ok d1 ∧
      d1.title = d0.title ∧ d1.tags = d0.tags ∧ d1.date = d0.date ∧ d1.id = d0.id ∧
      d1.content = String.mk (trimChars d0.content.data) :=
  ⟨_, parse_write d0 hnm ht hg hv, rfl, rfl, rfl, rfl, rfl⟩

/-- C4, amended, witness: a concrete fully-populated document
round-trips with only its body whitespace normalized. -/
theorem C4_roundtrip_witness :
    ∃ d1, parse_file (write_data_to_file
        { title := "Day One", tags := "+hike", content := " Walked far. ",
          date := { year := 2024, month := 1, day := 5 }, id := 7 }) = .ok d1 ∧
      d1.title = "Day One" ∧ d1.tags = "+hike" ∧
      d1.date = { year := 2024, month := 1, day := 5 } ∧ d1.id = 7 ∧
      d1.content = String.mk (trimChars (" Walked far. " : String).data) :=
  C4_roundtrip
    { title := "Day One", tags := "+hike", content := " Walked far. ",
      date := { year := 2024, month := 1, day := 5 }, id := 7 }
    (by decide) (by decide) (by decide) (by decide)

/-- An all-digit text has no marker occurrence. -/
lemma noOcc_digits (l : List Char) (h : ∀ c ∈ l, c.isDigit = true) :
    subSplit marker l = none :=
  noOcc_of_ne_head '-' ['-', '-'] l (fun a ha => (isDigit_ne a (h a ha)).1)

/-- An all-digit text does not end in a dash. -/
lemma not_dash_last_of_digits (l : List Char) (h : ∀ c ∈ l, c.isDigit = true) :
    ¬ l.getLast? = some '-' := by
  intro hc
  exact (isDigit_ne '-' (h '-' (mem_of_getLastSome l '-' hc))).1 rfl

/-- The marker junction condition from a last character that is not a
dash (or an empty text). -/
lemma marker_junction (x : List Char) (hx : ¬ x.getLast? = some '-') :
    ∀ j, 0 < j → j < marker.length → ¬ (marker.take j <:+ x) := by
  cases hl : x.getLast? with
  | none =>
      rw [List.getLast?_eq_none_iff] at hl
      subst hl
      exact junction_of_nil _
  | some b =>
      have hb : ¬ b = '-' := fun h => hx (by rw [hl, h])
      refine junction_of_getLast marker x b hl ?_
      intro c hc
      simp only [marker, List.mem_cons, List.not_mem_nil, or_false] at hc
      rcases hc with rfl | rfl | rfl <;> exact fun h => hb h.symm

/-- Prefixing occurrence-free text with an all-digit block keeps it
occurrence-free. -/
lemma noOcc_digits_append (x y : List Char) (hx : ∀ c ∈ x, c.isDigit = true)
    (hy : subSplit marker y = none) : subSplit marker (x ++ y) = none :=
  noOcc_append marker x y (noOcc_digits x hx) hy
    (marker_junction x (not_dash_last_of_digits x hx))

/-- A dash followed by a non-empty all-digit block opens no marker. -/
lemma noOcc_marker_cons_digits (x y : List Char) (hx : ∀ c ∈ x, c.isDigit = true)
    (hxne : x ≠ []) (h : subSplit marker (x ++ y) = none) :
    subSplit marker ('-' :: (x ++ y)) = none := by
  cases hP : x with
  | nil => exact absurd hP hxne
  | cons c t =>
      have hc : c.isDigit = true := hx c (by rw [hP]; simp)
      rw [hP] at h
      rw [List.cons_append] at h ⊢
      exact noOcc_marker_cons_dash c (t ++ y) (isDigit_ne c hc).1 h

/-- A zero-padded digit block with an occurrence-free continuation is
occurrence-free. -/
lemma noOcc_pad_append (k n : Nat) (y : List Char)
    (hy : subSplit marker y = none) :
    subSplit marker (List.leftpad k '0' (natDigits n) ++ y) = none :=
  noOcc_digits_append _ y (leftpad_digits_mem k n) hy

/-- A zero-padded digit block is never empty. -/
lemma leftpad_digits_ne_nil (k n : Nat) : List.leftpad k '0' (natDigits n) ≠ [] := by
  rw [List.leftpad]
  simp [List.append_eq_nil, natDigits_ne_nil n]

/-- A formatted date followed by a newline has no marker occurrence. -/
lemma noOcc_formatDate_nl (d : Date) :
    subSplit marker (formatDate d ++ ['\n']) = none := by
  rw [formatDate]
  have hassoc : (List.leftpad 4 '0' (natDigits d.year) ++ '-' ::
        (List.leftpad 2 '0' (natDigits d.month) ++ '-' ::
          List.leftpad 2 '0' (natDigits d.day))) ++ ['\n'] =
      List.leftpad 4 '0' (natDigits d.year) ++ ('-' ::
        (List.leftpad 2 '0' (natDigits d.month) ++ ('-' ::
          (List.leftpad 2 '0' (natDigits d.day) ++ ['\n'])))) := by
    simp [List.append_assoc]
  rw [hassoc]
  refine noOcc_pad_append 4 d.year _ ?_
  refine noOcc_marker_cons_digits _ _ (leftpad_digits_mem 2 d.month)
    (leftpad_digits_ne_nil 2 d.month) ?_
  refine noOcc_pad_append 2 d.month _ ?_
  refine noOcc_marker_cons_digits _ _ (leftpad_digits_mem 2 d.day)
    (leftpad_digits_ne_nil 2 d.day) ?_
  refine noOcc_pad_append 2 d.day _ ?_
  decide

/-- A rendered integer followed by a newline has no marker occurrence. -/
lemma noOcc_intChars_nl (i : Int) :
    subSplit marker (intChars i ++ ['\n']) = none := by
  rw [intChars]
  by_cases hi : i < 0
  · rw [if_pos hi, List.cons_append]
    exact noOcc_marker_cons_digits _ _ (natDigits_all_digit _) (natDigits_ne_nil _)
      (noOcc_digits_append _ _ (natDigits_all_digit _) (by decide))
  · rw [if_neg hi]
    exact noOcc_digits_append _ _ (natDigits_all_digit _) (by decide)

/-- A header line with an occurrence-free key that does not end in a
dash and an occurrence-free `value ++ newline` is occurrence-free. -/
lemma noOcc_headerLine (k v : List Char) (hk : subSplit marker k = none)
    (hkl : ¬ k.getLast? = some '-')
    (hv : subSplit marker (v ++ ['\n']) = none) :
    subSplit marker (headerLine k v) = none := by
  rw [headerLine]
  refine noOcc_append marker k _ hk ?_ (marker_junction k hkl)
  refine noOcc_cons '-' ['-', '-'] ':' _ (by decide) ?_
  exact noOcc_cons '-' ['-', '-'] ' ' _ (by decide) hv

/-- The dumped header of the template document has no marker occurrence,
whatever date and id it carries. -/
lemma noOcc_dump_template (today : Date) (entryid : Int) :
    subSplit marker (dumpHeader
      { title := "post title", tags := "+tag1, +tag2",
        content := "Write stuff here.", date := today, id := entryid }) = none := by
  rw [dumpHeader]
  dsimp only
  have htt : subSplit marker (headerLine "tags".data ("+tag1, +tag2" : String).data ++
      headerLine "title".data ("post title" : String).data) = none := by decide
  have hid : subSplit marker (headerLine "id".data (intChars entryid)) = none :=
    noOcc_headerLine _ _ (by decide) (by decide) (noOcc_intChars_nl entryid)
  have hdt : subSplit marker (headerLine "date".data (formatDate today)) = none :=
    noOcc_headerLine _ _ (by decide) (by decide) (noOcc_formatDate_nl today)
  refine noOcc_append marker _ _ hdt ?_
    (marker_junction _ (by rw [headerLine_getLast]; decide))
  exact noOcc_append marker _ _ hid htt
    (marker_junction _ (by rw [headerLine_getLast]; decide))

/-- C9: for every id argument (0, positive or negative) and every date
in the format's domain, the template file decodes without error to the
placeholder document — non-empty title, tags and content, the given
date, and the given id — and the written text always contains the
`id: <value>` header line, including for id 0. -/
theorem C9_template_decodes (today : Date) (entryid : Int) (hv : today.valid = true) :
    parse_file (write_template_file today entryid) =
      .ok { title := "post title", tags := "+tag1, +tag2",
            content := "Write stuff here.", date := today, id := entryid } ∧
    ∃ pre post, write_template_file today entryid =
      pre ++ (("id".data ++ ':' :: ' ' :: intChars entryid) ++ post) := by
  constructor
  · have h := parse_write
      { title := "post title", tags := "+tag1, +tag2",
        content := "Write stuff here.", date := today, id := entryid }
      (noOcc_dump_template today entryid)
      (show ∀ a ∈ ("post title" : String).data, ¬ a = '\n' by decide)
      (show ∀ a ∈ ("+tag1, +tag2" : String).data, ¬ a = '\n' by decide) hv
    have hc : String.mk (trimChars ("Write stuff here." : String).data) =
        "Write stuff here." := by decide
    rw [write_template_file]
    rw [h, hc]
  · refine ⟨marker ++ '\n' :: headerLine "date".data (formatDate today),
      '\n' :: (headerLine "tags".data ("+tag1, +tag2" : String).data ++
        (headerLine "title".data ("post title" : String).data ++
          (marker ++ '\n' :: '\n' :: ("Write stuff here." : String).data))), ?_⟩
    rw [write_template_file, write_data_to_file, dumpHeader]
    dsimp only
    simp [headerLine, List.append_assoc]

/-- C9, witness: the template for id 0 on 2026-10-12 decodes to the
placeholder document, and the file carries the `id: 0` line. -/
theorem C9_witness :
    parse_file (write_template_file { year := 2026, month := 10, day := 12 } 0) =
      .ok { title := "post title", tags := "+tag1, +tag2",
            content := "Write stuff here.",
            date := { year := 2026, month := 10, day := 12 }, id := 0 } ∧
    ∃ pre post, write_template_file { year := 2026, month := 10, day := 12 } 0 =
      pre ++ (("id".data ++ ':' :: ' ' :: intChars 0) ++ post) :=
  C9_template_decodes { year := 2026, month := 10, day := 12 } 0 (by decide)

/-- C7, counterexample: the missing-key error does not list the missing
keys.  A file whose header has `tags` and `title` but no `date`, and a
file whose header has `date` and `tags` but no `title`, both fail with
the identical constant message naming all three required keys, so the
message cannot be listing the (different) missing keys. -/
theorem C7_counterexample :
    parse_file "---\ntags: t\ntitle: x\n---\n\nbody".data =
      .error (.valueError missingKeysMsg) ∧
    parse_file "---\ndate: 2024-01-05\ntags: t\n---\n\nbody".data =
      .error (.valueError missingKeysMsg) ∧
    missingKeysMsg = "YAML header must contain 'title', 'tags', and 'date'." := by
  refine ⟨by decide, by decide, rfl⟩

/-- C7, amended: the failure modes of `decode`.  (a) Text without the
`---` marker fails with the fixed `ValueError` (the spec's
`FormatError`).  (b) Text in which the marker occurs but does not occur
again after the first occurrence fails with the tuple-unpacking
`ValueError`.  (c) A well-delimited file parses as its header and body.
(d) A parseable header missing any of `title`, `tags`, `date` fails with
the constant `ValueError` naming all three required keys — not the
missing ones.  (e) With all keys present but an unparseable date value,
it fails with the date `ValueError`.  (f) Otherwise it succeeds, and an
absent `id` key defaults to 0. -/
theorem C7_decode_failures :
    (∀ text : List Char, containsSub text marker = false →
      parse_file text = .error (.valueError "File format incorrect. YAML header not found.")) ∧
    (∀ text pre rest, subSplit marker text = some (pre, rest) →
      subSplit marker rest = none →
      parse_file text = .error (.valueError "not enough values to unpack (expected 2, got 1)")) ∧
    (∀ header body : List Char, subSplit marker header = none →
      ¬ header.getLast? = some '-' →
      parse_file (marker ++ (header ++ (marker ++ body))) = parseHeaderAndBody header body) ∧
    (∀ header body hd, loadHeader header = some hd →
      requiredHeaderKeys.all (fun k => (lookupKey hd k).isSome) = false →
      parseHeaderAndBody header body = .error (.valueError missingKeysMsg)) ∧
    (∀ header body hd, loadHeader header = some hd →
      requiredHeaderKeys.all (fun k => (lookupKey hd k).isSome) = true →
      parseDate ((lookupKey hd "date".data).getD []) = none →
      parseHeaderAndBody header body =
        .error (.valueError "time data does not match format '%Y-%m-%d'")) ∧
    (∀ header body hd dt, loadHeader header = some hd →
      requiredHeaderKeys.all (fun k => (lookupKey hd k).isSome) = true →
      parseDate ((lookupKey hd "date".data).getD []) = some dt →
      lookupKey hd "id".data = none →
      parseHeaderAndBody header body =
        .ok { title := String.mk ((lookupKey hd "title".data).getD []),
              tags := String.mk ((lookupKey hd "tags".data).getD []),
              content := String.mk (trimChars body), date := dt, id := 0 }) := by
  refine ⟨?_, ?_, ?_, ?_, ?_, ?_⟩
  · intro text h
    rw [parse_file, if_neg (by simp [h])]
  · intro text pre rest h1 h2
    have hcontains : containsSub text marker = true := by
      rw [containsSub, h1]
      rfl
    rw [parse_file, if_pos hcontains, h1]
    simp only [h2]
  · intro header body hnm hnd
    have hs1 : subSplit marker (marker ++ (header ++ (marker ++ body))) =
        some ([], header ++ (marker ++ body)) := by
      have := subSplit_append marker [] (header ++ (marker ++ body))
        (by simp [marker]) (subSplit_nil_ne _ (by simp [marker])) (junction_of_nil _)
      simpa using this
    have hs2 : subSplit marker (header ++ (marker ++ body)) = some (header, body) :=
      subSplit_append marker header body (by simp [marker]) hnm (marker_junction header hnd)
    have hcontains : containsSub (marker ++ (header ++ (marker ++ body))) marker = true := by
      rw [containsSub, hs1]
      rfl
    rw [parse_file, if_pos hcontains, hs1]
    simp only [hs2]
  · intro header body hd hload hmiss
    rw [parseHeaderAndBody, hload]
    simp only [hmiss, Bool.false_eq_true, if_false]
  · intro header body hd hload hall hdate
    rw [parseHeaderAndBody, hload]
    simp only [hall, if_true, hdate]
  · intro header body hd dt hload hall hdate hid
    rw [parseHeaderAndBody, hload]
    simp only [hall, if_true, hdate, hid]

/-- C7, amended, witness: each failure and success mode at a concrete
input — no marker; a single marker; a well-delimited file bridging to
the header-and-body parser; a header missing `date`; an unparseable
date; and a success with the `id` key absent defaulting to 0. -/
theorem C7_decode_failures_witness :
    parse_file "no marker here".data =
      .error (.valueError "File format incorrect. YAML header not found.") ∧
    parse_file "---\nonly one marker".data =
      .error (.valueError "not enough values to unpack (expected 2, got 1)") ∧
    parse_file (marker ++ ("\ntitle: x\ntags: y\ndate: 2024-01-05\n".data ++
      (marker ++ "\n\nbody".data))) =
      parseHeaderAndBody "\ntitle: x\ntags: y\ndate: 2024-01-05\n".data "\n\nbody".data ∧
    parseHeaderAndBody "title: x\ntags: y\n".data "b".data =
      .error (.valueError missingKeysMsg) ∧
    parseHeaderAndBody "title: x\ntags: y\ndate: 2024-13-05\n".data "b".data =
      .error (.valueError "time data does not match format '%Y-%m-%d'") ∧
    parseHeaderAndBody "title: x\ntags: y\ndate: 2024-01-05\n".data " b ".data =
      .ok { title := "x", tags := "y", content := String.mk (trimChars (" b " : String).data),
            date := { year := 2024, month := 1, day := 5 }, id := 0 } := by
  refine ⟨C7_decode_failures.1 _ (by decide),
    C7_decode_failures.2.1 _ [] "\nonly one marker".data (by decide) (by decide),
    C7_decode_failures.2.2.1 _ _ (by decide) (by decide),
    C7_decode_failures.2.2.2.1 _ _ [("title".data, "x".data), ("tags".data, "y".data)]
      (by decide) (by decide),
    C7_decode_failures.2.2.2.2.1 _ _
      [("title".data, "x".data), ("tags".data, "y".data), ("date".data, "2024-13-05".data)]
      (by decide) (by decide) (by decide),
    ?_⟩
  exact C7_decode_failures.2.2.2.2.2 _ _
    [("title".data, "x".data), ("tags".data, "y".data), ("date".data, "2024-01-05".data)]
    { year := 2024, month := 1, day := 5 }
    (by decide) (by decide) (by decide) (by decide)
